import Mathlib

/-!
# LUMA / LatBo: object-manager I/O, start-up checks and generic vector helpers

A shallow embedding of

* `src/LUMA/src/ObjectManager_ops_io.cpp` (`io_restart`, `io_vtk_IBwriter`,
  `io_writeForceOnObject`, `io_write_lift_drag`, `io_readInCloud`),
* `src/LUMA/src/main_lbm.cpp` (the start-up prefix of `main` and its BFL section),
* `src/LatBo/Gen_ops_generic.cpp` (`linspace`, `onespace`, `indmapref`, `matrix_multiply`),
* `src/LatBo/src/GridObj_tecplot.cpp` (`io_tecplot`).

Conventions.

* `double` values are rationals (exact arithmetic); `int` and `size_t` values are
  integers / naturals, with the conversions and wrap-arounds of the source written out
  where the source relies on them.
* A text file is modelled by its sequence of white-space separated fields; a numeric
  field is kept as the number it denotes and the character `/` is a field of its own.
* A counted `for` loop whose bound does not change while it runs is a structural
  recursion on the number of remaining iterations.
* A routine that may call `exit` returns an `Outcome`.
* In `onespace` and `indmapref` each `int` operation is checked, and a signed overflow
  (undefined in the source) is an outcome of its own.
-/

namespace LUMA

/-! ## Outcomes -/

/-- Exit code passed to `exit` by the LUMA sources. -/
inductive ExitCode where
  | LUMA_FAILED
  deriving DecidableEq, Repr

/-- Result of running a routine on a state of type `σ`: it returns, it calls `exit` (the state
reached at that moment is kept), or it indexes a vector outside its bounds. -/
inductive Outcome (σ : Type) where
  | returned (s : σ)
  | exited (code : ExitCode) (s : σ)
  | outOfRange
  deriving DecidableEq, Repr

/-! ## Bodies and markers -/

/-- Three coordinates `v[0], v[1], v[2]`. -/
abbrev Vec3 := ℚ × ℚ × ℚ

/-- Lagrangian marker: the members read or written by the I/O routines. -/
structure IBMarker where
  position : Vec3
  position_old : Vec3
  force_xyz : Vec3
  deriving DecidableEq, Repr

/-- Immersed-boundary body: ordered markers, `flex_rigid` (true = flexible) and
`closed_surface`. -/
structure IBBody where
  markers : List IBMarker
  flex_rigid : Bool
  closed_surface : Bool
  deriving DecidableEq, Repr

/-- Members of `ObjectManager` used by the I/O routines. -/
structure ObjectManager where
  iBody : List IBBody
  force_on_object_x : ℚ
  force_on_object_y : ℚ
  force_on_object_z : ℚ
  deriving DecidableEq, Repr

/-! ## Text streams -/

/-- Numeric field of a text file. `num q` is a numeral with digits before the decimal point
(`12`, `-3`, `0.75`); `frac q` is a numeral that starts at the decimal point (`.75`), which is also
what an `int` extraction leaves behind of a numeral such as `12.75`. -/
inductive Tok where
  | num (q : ℚ)
  | frac (q : ℚ)
  deriving DecidableEq, Repr

/-- Field of the restart file: a numeric field or the separator character `/`. -/
inductive Item where
  | tok (t : Tok)
  | sep
  deriving DecidableEq, Repr

/-- Model of `std::getline(file, line_in, '/')` on the unread part of the file: the fields up to
the next `/` (which is consumed), the remaining fields, and whether the end of the file was hit
while looking for the delimiter (`eofbit`). -/
def getline : List Item → List Tok × List Item × Bool
  | [] => ([], [], true)
  | Item.sep :: r => ([], r, false)
  | Item.tok t :: r => (t :: (getline r).1, (getline r).2.1, (getline r).2.2)

/-- State of the `std::istringstream iss`: the unread fields of its buffer and `failbit`. -/
structure ISS where
  buf : List Tok
  fail : Bool
  deriving DecidableEq, Repr

/-- Model of `iss.str(line_in)`: replaces the buffer; the state flags are not touched. -/
def ISS.str (s : ISS) (line : List Tok) : ISS := { buf := line, fail := s.fail }

/-- Model of `iss.seekg(0)`: with `failbit` set the call does nothing; otherwise it moves to the
start of the buffer, where `str` has already put the read position. -/
def ISS.seekg0 (s : ISS) : ISS := if s.fail then s else { buf := s.buf, fail := false }

/-- Largest value of an `int` (32 bit). -/
def INT_MAX : Int := 2147483647

/-- Smallest value of an `int` (32 bit). -/
def INT_MIN : Int := -2147483648

/-- Model of `iss >> v` for `int v`. A failed stream, or one with nothing left but white space,
leaves `v` alone (and sets `failbit`). Otherwise the digits of the next numeral up to its decimal
point are read; a value outside `int` is clamped and sets `failbit`; a field without leading
digits stores `0` and sets `failbit`. -/
def ISS.readInt (s : ISS) (v : Int) : Int × ISS :=
  if s.fail then (v, s)
  else
    match s.buf with
    | [] => (v, { buf := [], fail := true })
    | Tok.frac q :: r => (0, { buf := Tok.frac q :: r, fail := true })
    | Tok.num q :: r =>
      let n : Int := Int.tdiv q.num q.den
      let left : List Tok := if q.den = 1 then r else Tok.frac (Int.fract |q|) :: r
      if n > INT_MAX then (INT_MAX, { buf := left, fail := true })
      else if n < INT_MIN then (INT_MIN, { buf := left, fail := true })
      else (n, { buf := left, fail := false })

/-- Model of `iss >> v` for `double v`: as `readInt`, but the whole numeral is read. -/
def ISS.readDouble (s : ISS) (v : ℚ) : ℚ × ISS :=
  if s.fail then (v, s)
  else
    match s.buf with
    | [] => (v, { buf := [], fail := true })
    | Tok.frac q :: r => (q, { buf := r, fail := false })
    | Tok.num q :: r => (q, { buf := r, fail := false })

/-- Value of an integer as a `size_t` (64 bit): the conversion of an `int` in `size() != n`, and
the wrap-around of `size_t` arithmetic. -/
def toSizeT (n : Int) : Nat := (n % 18446744073709551616).toNat

/-! ## `ObjectManager::io_restart`, save mode -/

/-- The field written by `file << v` for a number `v`. -/
def put (q : ℚ) : Item := Item.tok (Tok.num q)

/-- Body of the marker loop of the save branch (lines 118-128), for marker `mk` of a body whose
`flex_rigid` flag is `flex`, appended to the text `out` written so far. -/
def saveMarker (flex : Bool) (mk : IBMarker) (out : List Item) : List Item :=
  let out := out ++ [put mk.position.1, put mk.position.2.1, put mk.position.2.2]
  if flex then
    out ++ [put mk.position_old.1, put mk.position_old.2.1, put mk.position_old.2.2]
  else out

/-- The loop `for (m = 0; m < iBody[b].markers.size(); m++)` of the save branch, with `k`
iterations left. -/
def saveMarkers (body : IBBody) : (k : Nat) → (m : Nat) → List Item → Option (List Item)
  | 0, _, out => some out
  | k + 1, m, out =>
    match body.markers[m]? with
    | none => none
    | some mk => saveMarkers body k (m + 1) (saveMarker body.flex_rigid mk out)

/-- The loop `for (b = 0; b < num_bod; b++)` of the save branch, with `k` iterations left. -/
def saveBodies (iBody : List IBBody) : (k : Nat) → (b : Nat) → List Item → Option (List Item)
  | 0, _, out => some out
  | k + 1, b, out =>
    match iBody[b]? with
    | none => none
    | some body =>
      let out := out ++ [Item.sep]
      let out := out ++ [put (body.markers.length : ℚ), Item.sep]
      match saveMarkers body (body.markers.length - 0) 0 out with
      | none => none
      | some out => saveBodies iBody k (b + 1) out

/-- Text that the save branch sends to the stream `file` (lines 101-132). -/
def saveText (om : ObjectManager) : Option (List Item) :=
  let num_bod := om.iBody.length
  saveBodies om.iBody (num_bod - 0) 0 [put (num_bod : ℚ)]

/-- `io_restart(true, level)`: contents of `restart_IBBody.out` afterwards, `old` being its
contents before (`none`: no such file). Rank 0 at level 0 overwrites, other ranks at level 0
append, and on a sub-grid nothing is written. -/
def io_restart_save (om : ObjectManager) (my_rank : Int) (level : Int)
    (old : Option (List Item)) : Outcome (Option (List Item)) :=
  if my_rank = 0 ∧ level = 0 then
    match saveText om with
    | none => Outcome.outOfRange
    | some t => Outcome.returned (some t)
  else if level = 0 then
    match saveText om with
    | none => Outcome.outOfRange
    | some t => Outcome.returned (some (old.getD [] ++ t))
  else Outcome.returned old

/-! ## `ObjectManager::io_restart`, load mode -/

/-- Lines 202-211: the extractions into marker `mk` of a body whose `flex_rigid` flag is `flex`. -/
def loadMarker (flex : Bool) (mk : IBMarker) (iss : ISS) : IBMarker × ISS :=
  let r0 := iss.readDouble mk.position.1
  let r1 := r0.2.readDouble mk.position.2.1
  let r2 := r1.2.readDouble mk.position.2.2
  let mk1 : IBMarker := { mk with position := (r0.1, r1.1, r2.1) }
  if flex then
    let o0 := r2.2.readDouble mk1.position_old.1
    let o1 := o0.2.readDouble mk1.position_old.2.1
    let o2 := o1.2.readDouble mk1.position_old.2.2
    ({ mk1 with position_old := (o0.1, o1.1, o2.1) }, o2.2)
  else (mk1, r2.2)

/-- The loop `for (m = 0; m < num_mark; m++)` of the load branch on body `body`, with `k`
iterations left; `none` when `markers[m]` does not exist. -/
def loadMarkers : (k : Nat) → (m : Nat) → IBBody → ISS → Option (IBBody × ISS)
  | 0, _, body, iss => some (body, iss)
  | k + 1, m, body, iss =>
    match body.markers[m]? with
    | none => none
    | some mk =>
      let r := loadMarker body.flex_rigid mk iss
      loadMarkers k (m + 1) { body with markers := body.markers.set m r.1 } r.2

/-- Local state of the load branch while the body loop runs. -/
structure LoadState where
  iBody : List IBBody
  file : List Item
  eof : Bool
  iss : ISS
  num_mark : Int
  deriving DecidableEq, Repr

/-- The loop `for (b = 0; b < num_bod; b++)` of the load branch (lines 177-215), with `k`
iterations left. -/
def loadBodies : (k : Nat) → (b : Nat) → LoadState → Outcome LoadState
  | 0, _, st => Outcome.returned st
  | k + 1, b, st =>
    if st.eof then Outcome.returned st
    else
      let g := getline st.file
      let iss := (st.iss.str g.1).seekg0
      let r := iss.readInt st.num_mark
      let st1 : LoadState :=
        { st with file := g.2.1, eof := g.2.2, iss := r.2, num_mark := r.1 }
      match st1.iBody[b]? with
      | none => Outcome.outOfRange
      | some body =>
        if body.markers.length ≠ toSizeT st1.num_mark then
          Outcome.exited ExitCode.LUMA_FAILED st1
        else
          match loadMarkers (st1.num_mark.toNat - 0) 0 body st1.iss with
          | none => Outcome.outOfRange
          | some (body1, iss1) =>
            loadBodies k (b + 1) { st1 with iBody := st1.iBody.set b body1, iss := iss1 }

/-- `io_restart(false, level)`. `input` is the content of `./input/restart_IBBody.out` (`none`:
the file cannot be opened); `num_bod0`, `num_mark0` are the indeterminate initial values of the
locals `num_bod` and `num_mark`. The outcome carries the object manager as it is when the routine
returns or exits. -/
def io_restart_load (om : ObjectManager) (input : Option (List Item)) (level : Int)
    (num_bod0 num_mark0 : Int) : Outcome ObjectManager :=
  match (if level = 0 then input else none) with
  | none => Outcome.exited ExitCode.LUMA_FAILED om
  | some content =>
    let g := getline content
    let iss := (ISS.str { buf := [], fail := false } g.1).seekg0
    let r := iss.readInt num_bod0
    let num_bod := r.1
    if om.iBody.length ≠ toSizeT num_bod then Outcome.exited ExitCode.LUMA_FAILED om
    else
      match loadBodies (num_bod.toNat - 0) 0
          { iBody := om.iBody, file := g.2.1, eof := g.2.2, iss := r.2, num_mark := num_mark0 } with
      | Outcome.returned st => Outcome.returned { om with iBody := st.iBody }
      | Outcome.exited c st => Outcome.exited c { om with iBody := st.iBody }
      | Outcome.outOfRange => Outcome.outOfRange

/-- `ObjectManager::io_restart(IO_flag, level)` on the pair (object manager, restart file). Save
mode writes `restart_IBBody.out` in the output directory, load mode reads the file of that name
in `./input`; the model uses one file for both. -/
def io_restart (IO_flag : Bool) (level : Int) (my_rank : Int) (num_bod0 num_mark0 : Int)
    (st : ObjectManager × Option (List Item)) : Outcome (ObjectManager × Option (List Item)) :=
  if IO_flag then
    match io_restart_save st.1 my_rank level st.2 with
    | Outcome.returned f => Outcome.returned (st.1, f)
    | Outcome.exited c f => Outcome.exited c (st.1, f)
    | Outcome.outOfRange => Outcome.outOfRange
  else
    match io_restart_load st.1 st.2 level num_bod0 num_mark0 with
    | Outcome.returned om => Outcome.returned (om, st.2)
    | Outcome.exited c om => Outcome.exited c (om, st.2)
    | Outcome.outOfRange => Outcome.outOfRange

/-! ## `ObjectManager::io_writeForceOnObject` -/

/-- Line of `LiftDrag<rank>.csv`: the header `Time,Fx,Fy,Fz` or a row of four values. -/
inductive CsvLine where
  | header
  | row (time fx fy fz : ℚ)
  deriving DecidableEq, Repr

/-- Model of `static_cast<int>(v)` for a `double` whose integer part fits an `int`. -/
def castInt (v : ℚ) : Int := Int.tdiv v.num v.den

/-- `io_writeForceOnObject(tval)` on the pair (object manager, lines of the csv file).
`hasGrid` says whether `GridUtils::getGrid` finds the grid of the object on this process
(`g != NULL`); `L_object_on_grid_lev` is the configured level; `dims` is the value the
preprocessor gives the identifier `dims` in `#if (dims == 3)`. -/
def io_writeForceOnObject (hasGrid : Bool) (L_object_on_grid_lev : Int) (dims : Int) (tval : ℚ)
    (st : ObjectManager × List CsvLine) : ObjectManager × List CsvLine :=
  if hasGrid then
    let om := st.1
    let fout := st.2
    let fout := if castInt tval = 0 then fout ++ [CsvLine.header] else fout
    let fout := fout ++
      [CsvLine.row tval
        (om.force_on_object_x / (2 : ℚ) ^ L_object_on_grid_lev)
        (om.force_on_object_y / (2 : ℚ) ^ L_object_on_grid_lev)
        (if dims = 3 then om.force_on_object_z / (2 : ℚ) ^ L_object_on_grid_lev else 0)]
    let om := { om with force_on_object_x := 0 }
    let om := { om with force_on_object_y := 0 }
    let om := { om with force_on_object_z := 0 }
    (om, fout)
  else st

/-! ## `ObjectManager::io_vtk_IBwriter` -/

/-- Line of a VTK polydata file written by `io_vtk_IBwriter`. -/
inductive VtkLine where
  | version
  | title (ib : Nat) (t : Int)
  | ascii
  | dataset
  | points (n : Nat)
  | point (x y z : ℚ)
  | lines (count size : Nat)
  | cell (npts a b : Nat)
  deriving DecidableEq, Repr

/-- The loop over the markers that writes the `POINTS` (lines 247-258), with `k` iterations
left. -/
def vtkPoints (L_dims : Nat) (body : IBBody) :
    (k : Nat) → (i : Nat) → List VtkLine → Option (List VtkLine)
  | 0, _, fout => some fout
  | k + 1, i, fout =>
    match body.markers[i]? with
    | none => none
    | some mk =>
      vtkPoints L_dims body k (i + 1)
        (fout ++ [if L_dims = 3 then VtkLine.point mk.position.1 mk.position.2.1 mk.position.2.2
                  else VtkLine.point mk.position.1 mk.position.2.1 1])

/-- The loop `for (size_t i = 0; i < nLines; i++)` (lines 269-271), with `k` iterations left. -/
def vtkSegments : (k : Nat) → (i : Nat) → List VtkLine → List VtkLine
  | 0, _, fout => fout
  | k + 1, i, fout => vtkSegments k (i + 1) (fout ++ [VtkLine.cell 2 i (i + 1)])

/-- Lines 261-276: the connectivity of one body, appended to `fout`. -/
def vtkConnectivity (body : IBBody) (fout : List VtkLine) : List VtkLine :=
  let nLines : Nat := toSizeT ((body.markers.length : Int) - 1)
  let fout :=
    if body.closed_surface = false then
      fout ++ [VtkLine.lines nLines (toSizeT (3 * (nLines : Int)))]
    else if body.closed_surface = true then
      fout ++ [VtkLine.lines (toSizeT ((nLines : Int) + 1))
        (toSizeT (3 * (toSizeT ((nLines : Int) + 1) : Int)))]
    else fout
  let fout := vtkSegments (nLines - 0) 0 fout
  if body.closed_surface = true then fout ++ [VtkLine.cell 2 nLines 0] else fout

/-- Body of the loop over `ib` (lines 231-278): the lines of `vtk_IBout.Body<ib>.<t>.vtk`. -/
def vtkFile (L_dims : Nat) (ib : Nat) (tval : ℚ) (body : IBBody) : Option (List VtkLine) :=
  let fout := [VtkLine.version, VtkLine.title ib (castInt tval), VtkLine.ascii, VtkLine.dataset]
  let fout := fout ++ [VtkLine.points body.markers.length]
  match vtkPoints L_dims body (body.markers.length - 0) 0 fout with
  | none => none
  | some fout => some (vtkConnectivity body fout)

/-- The loop `for (size_t ib = 0; ib < iBody.size(); ib++)` of `io_vtk_IBwriter`, with `k`
iterations left; `files` collects the files written, in order. -/
def vtkBodies (L_dims : Nat) (iBody : List IBBody) (tval : ℚ) :
    (k : Nat) → (ib : Nat) → List (List VtkLine) → Option (List (List VtkLine))
  | 0, _, files => some files
  | k + 1, ib, files =>
    match iBody[ib]? with
    | none => none
    | some body =>
      match vtkFile L_dims ib tval body with
      | none => none
      | some f => vtkBodies L_dims iBody tval k (ib + 1) (files ++ [f])

/-- `io_vtk_IBwriter(tval)`: the files written, one per body in index order (`none` when a vector
is indexed outside its bounds). -/
def io_vtk_IBwriter (L_dims : Nat) (om : ObjectManager) (tval : ℚ) :
    Option (List (List VtkLine)) :=
  vtkBodies L_dims om.iBody tval (om.iBody.length - 0) 0 []

/-! ## Start-up of `main` -/

/-- Steps of `main` up to the construction of the level-0 grid that act on the outside world. -/
inductive StartupStep where
  | MPI_Init
  | resetRefZ
  | mpi_init
  | printVersion
  | mpi_gridbuild
  | createOutputDirectory
  | openLogfile
  | logStart
  | logTooFewCores
  | MPI_Finalize
  | MPI_Barrier
  | logMpiTime
  | constructGrid
  deriving DecidableEq, Repr

/-- Lines 55-196 of `main` as the list of steps taken, ending either in `exit(LUMA_FAILED)` or
with the level-0 `GridObj` constructed. `L_BUILD_FOR_MPI`, `L_dims`, `L_NumLev` and the
`L_?cores` are the configuration macros; the calls into `MpiManager`, `GridUtils` and MPI are
taken to return. -/
def main_startup (L_BUILD_FOR_MPI : Bool) (L_dims : Nat) (L_NumLev : Nat)
    (L_Xcores L_Ycores L_Zcores : Int) : Outcome (List StartupStep) :=
  let tr : List StartupStep := if L_BUILD_FOR_MPI then [StartupStep.MPI_Init] else []
  let tr := if L_dims ≠ 3 ∧ L_NumLev ≠ 0 then tr ++ [StartupStep.resetRefZ] else tr
  let tr :=
    if L_BUILD_FOR_MPI then
      tr ++ [StartupStep.mpi_init, StartupStep.printVersion, StartupStep.mpi_gridbuild]
    else tr ++ [StartupStep.createOutputDirectory, StartupStep.printVersion]
  let tr := tr ++ [StartupStep.openLogfile, StartupStep.logStart]
  if L_BUILD_FOR_MPI ∧
      (L_Xcores < 2 ∨ L_Ycores < 2 ∨ (L_dims = 3 ∧ L_Zcores < 2)) then
    Outcome.exited ExitCode.LUMA_FAILED
      (tr ++ [StartupStep.logTooFewCores, StartupStep.MPI_Finalize])
  else
    let tr :=
      if L_BUILD_FOR_MPI then
        tr ++ [StartupStep.MPI_Barrier, StartupStep.logMpiTime, StartupStep.MPI_Barrier]
      else tr
    Outcome.returned (tr ++ [StartupStep.constructGrid])

/-! ## The restart format in the words of the specification -/

/-- The integer a snapshot starts with: the digits before the decimal point of its first field. -/
def leadingCount : List Item → Option Int
  | Item.tok (Tok.num q) :: _ => some (Int.tdiv q.num q.den)
  | _ => none

/-- Coordinate fields of one marker as the restart format lists them. -/
def markerFields (flex : Bool) (mk : IBMarker) : List Item :=
  [put mk.position.1, put mk.position.2.1, put mk.position.2.2] ++
    (if flex then [put mk.position_old.1, put mk.position_old.2.1, put mk.position_old.2.2]
     else [])

/-- Coordinate fields of one body: those of its markers, in marker order. -/
def coordFields (body : IBBody) : List Item :=
  body.markers.flatMap (markerFields body.flex_rigid)

/-- Snapshot of a registry: the body count, then for each body in index order the separator, the
marker count, the separator and the coordinate fields of the body. -/
def snapshotLayout (iBody : List IBBody) : List Item :=
  put (iBody.length : ℚ) ::
    iBody.flatMap (fun body =>
      [Item.sep, put (body.markers.length : ℚ), Item.sep] ++ coordFields body)

/-! ## The VTK connectivity in the words of the specification -/

/-- Segments of a body in the words of the specification: marker `i` to marker `i + 1` for
`i = 0 .. n - 2`, and for a closed body one more from marker `n - 1` to marker `0`. -/
def bodySegments (body : IBBody) : List VtkLine :=
  (List.range (body.markers.length - 1)).map (fun i => VtkLine.cell 2 i (i + 1)) ++
    (if body.closed_surface then [VtkLine.cell 2 (body.markers.length - 1) 0] else [])

/-- Header and `POINTS` section of the file of body `ib`. -/
def vtkPreamble (L_dims : Nat) (ib : Nat) (tval : ℚ) (body : IBBody) : List VtkLine :=
  [VtkLine.version, VtkLine.title ib (castInt tval), VtkLine.ascii, VtkLine.dataset,
    VtkLine.points body.markers.length] ++
  body.markers.map (fun mk =>
    if L_dims = 3 then VtkLine.point mk.position.1 mk.position.2.1 mk.position.2.2
    else VtkLine.point mk.position.1 mk.position.2.1 1)

/-! ## Concrete registries and snapshots -/

/-- Marker at `(x, y, z)` with zero previous position and force. -/
def markerAt (x y z : ℚ) : IBMarker :=
  { position := (x, y, z), position_old := (0, 0, 0), force_xyz := (0, 0, 0) }

/-- Object manager holding the given bodies, with a zero force accumulator. -/
def managerOf (bodies : List IBBody) : ObjectManager :=
  { iBody := bodies, force_on_object_x := 0, force_on_object_y := 0, force_on_object_z := 0 }

/-- Open rigid body with the given markers. -/
def rigidBody (ms : List IBMarker) : IBBody :=
  { markers := ms, flex_rigid := false, closed_surface := false }

/-- Registry that is saved: two rigid bodies, of one and of two markers. -/
def savedTwo : ObjectManager :=
  managerOf [rigidBody [markerAt 1 2 3], rigidBody [markerAt 4 5 6, markerAt 7 8 9]]

/-- Text `2 / 1 / 1 2 3 / 2 / 4 5 6 7 8 9` that the save mode writes for `savedTwo`. -/
def snapshotTwo : List Item :=
  [put 2, Item.sep, put 1, Item.sep, put 1, put 2, put 3,
   Item.sep, put 2, Item.sep, put 4, put 5, put 6, put 7, put 8, put 9]

/-- Live registry with two rigid bodies of one marker each. -/
def liveTwo : ObjectManager :=
  managerOf [rigidBody [markerAt 0 0 0], rigidBody [markerAt 0 0 0]]

/-- Registry that is saved: one rigid body with one marker at `(1, 2, 3)`. -/
def savedOne : ObjectManager := managerOf [rigidBody [markerAt 1 2 3]]

/-- Text `1 / 1 / 1 2 3` that the save mode writes for `savedOne`. -/
def snapshotOne : List Item := [put 1, Item.sep, put 1, Item.sep, put 1, put 2, put 3]

/-- Live registry of the same shape as `savedOne`, its marker at the origin. -/
def liveOne : ObjectManager := managerOf [rigidBody [markerAt 0 0 0]]

/-- Closed rigid body with three markers. -/
def closedTriangle : IBBody :=
  { markers := [markerAt 0 0 0, markerAt 1 0 0, markerAt 1 1 0], flex_rigid := false,
    closed_surface := true }

/-! ## `ObjectManager::io_write_lift_drag` -/

/-- Line of a `Body_<ib>_LD_<timestep>_rank<r>.out` file. -/
inductive LdLine where
  | header (timestep : Int)
  | marker (fx fy : ℚ)
  | totalsLabel
  | totals (Lsum Dsum : ℚ)
  deriving DecidableEq, Repr

/-- The loop over the markers (lines 69-74), with `k` iterations left; the state is the text
written so far with the running sums `Lsum` and `Dsum`. -/
def liftDragMarkers (body : IBBody) :
    (k : Nat) → (i : Nat) → List LdLine × ℚ × ℚ → Option (List LdLine × ℚ × ℚ)
  | 0, _, st => some st
  | k + 1, i, st =>
    match body.markers[i]? with
    | none => none
    | some mk =>
      liftDragMarkers body k (i + 1)
        (st.1 ++ [LdLine.marker mk.force_xyz.1 mk.force_xyz.2.1],
          st.2.1 + mk.force_xyz.1, st.2.2 + mk.force_xyz.2.1)

/-- Body of the loop over `ib` (lines 60-78): the lines of the file of one body. -/
def liftDragFile (timestep : Int) (body : IBBody) : Option (List LdLine) :=
  match liftDragMarkers body (body.markers.length - 0) 0 ([LdLine.header timestep], 0, 0) with
  | none => none
  | some st => some (st.1 ++ [LdLine.totalsLabel] ++ [LdLine.totals st.2.1 st.2.2])

/-- The loop `for (size_t ib = 0; ib < iBody.size(); ib++)` of `io_write_lift_drag`, with `k`
iterations left. -/
def liftDragBodies (timestep : Int) (iBody : List IBBody) :
    (k : Nat) → (ib : Nat) → List (List LdLine) → Option (List (List LdLine))
  | 0, _, files => some files
  | k + 1, ib, files =>
    match iBody[ib]? with
    | none => none
    | some body =>
      match liftDragFile timestep body with
      | none => none
      | some f => liftDragBodies timestep iBody k (ib + 1) (files ++ [f])

/-- `io_write_lift_drag(timestep)`: the object manager afterwards (the routine assigns to none of
its members) and the files written, one per body in index order; `none` when a vector is indexed
outside its bounds. -/
def io_write_lift_drag (timestep : Int) (om : ObjectManager) :
    Option (ObjectManager × List (List LdLine)) :=
  match liftDragBodies timestep om.iBody (om.iBody.length - 0) 0 [] with
  | none => none
  | some files => some (om, files)

/-! ## `ObjectManager::io_readInCloud` -/

/-- The object types of `eObjectType` handled by `io_readInCloud`. -/
inductive eObjectType where
  | eBBBCloud
  | eBFLCloud
  | eIBBCloud
  deriving DecidableEq, Repr

/-- The directions of `eCartesianDirection`. -/
inductive eCartesianDirection where
  | eXDirection
  | eYDirection
  | eZDirection
  deriving DecidableEq, Repr

/-- Site labels of the typing matrix: the two that `io_readInCloud` names, and the others. -/
inductive eType where
  | eSolid
  | eFluid
  | eOther (label : Nat)
  deriving DecidableEq, Repr

/-- The point cloud `PCpts`: three coordinate vectors. -/
structure PCpts where
  x : List ℚ
  y : List ℚ
  z : List ℚ
  deriving DecidableEq, Repr

/-- The case-specific variables as the `switch` of lines 298-336 sets them. -/
structure CloudCase where
  body_length : Int
  body_start_x : Int
  body_start_y : Int
  body_centre_z : Int
  scale_direction : eCartesianDirection

/-- Routines called by `io_readInCloud` that are defined outside the sources at hand:
`getVoxInd`, `GridUtils::isOnThisRank` and `GridUtils::global_to_local` for the target grid, and
the effect of the two body builders on the cloud they are handed. -/
structure CloudEnv where
  getVoxInd : ℚ → Int
  isOnThisRank : Int → Int → Int → Bool
  global_to_local : Int → Int → Int → Int × Int × Int
  bfl_build_body : PCpts → PCpts
  ibm_build_body : PCpts → PCpts

/-- Call of a body builder, with the cloud it is handed. -/
inductive BuildCall where
  | bfl (pts : PCpts)
  | ibm (pts : PCpts)
  deriving DecidableEq, Repr

/-- State that `io_readInCloud` acts on: the cloud `*_PCpts`, the typing matrix `g->LatTyp` of
the target grid as a function of the three local indices, and the builder calls made so far. -/
structure CloudState where
  pts : PCpts
  LatTyp : Int → Int → Int → eType
  calls : List BuildCall

/-- Result of a run on a state of type `σ`: as `Outcome`, and in addition `notFinite` when a
`double` division by zero leaves exact arithmetic and `outOfFuel` when a loop of the model was
not given enough iterations. -/
inductive CloudRun (σ : Type) where
  | returned (s : σ)
  | exited (code : ExitCode) (s : σ)
  | outOfRange
  | notFinite
  | outOfFuel
  deriving DecidableEq

/-- The elements `x[a]`, `y[a]`, `z[a]`, when all three exist. -/
def PCpts.get? (pts : PCpts) (a : Nat) : Option (ℚ × ℚ × ℚ) :=
  match pts.x[a]?, pts.y[a]?, pts.z[a]? with
  | some xa, some ya, some za => some (xa, ya, za)
  | _, _, _ => none

/-- Assignment to `x[a]`, `y[a]`, `z[a]`. -/
def PCpts.set (pts : PCpts) (a : Nat) (p : ℚ × ℚ × ℚ) : PCpts :=
  { x := pts.x.set a p.1, y := pts.y.set a p.2.1, z := pts.z.set a p.2.2 }

/-- The three calls `erase(begin() + a)` of lines 445-447. -/
def PCpts.erase (pts : PCpts) (a : Nat) : PCpts :=
  { x := pts.x.eraseIdx a, y := pts.y.eraseIdx a, z := pts.z.eraseIdx a }

/-- Model of `*std::max_element(v.begin(), v.end())`; `none` for an empty vector. -/
def maxElement : List ℚ → Option ℚ
  | [] => none
  | a :: l => some (l.foldl max a)

/-- Model of `*std::min_element(v.begin(), v.end())`; `none` for an empty vector. -/
def minElement : List ℚ → Option ℚ
  | [] => none
  | a :: l => some (l.foldl min a)

/-- Value that `#if` gives to an identifier that is not a macro. `scale_direction` is a local
variable and `eXDirection`, `eYDirection`, `eZDirection` are enumerators, so this is the value
of each side of the comparisons of lines 396-402. -/
def ppIdentifier : Int := 0

/-- Lines 396-405: the vector whose bounding-box dimension divides `body_length`, as the
preprocessor selects it (`none`: no branch is compiled). -/
def scaleVector (pts : PCpts) : Option (List ℚ) :=
  if ppIdentifier = ppIdentifier then some pts.x
  else if ppIdentifier = ppIdentifier then some pts.y
  else if ppIdentifier = ppIdentifier then some pts.z
  else none

/-- Lines 396-405: `scale_factor`. -/
def scaleFactor (cfg : CloudCase) (pts : PCpts) : CloudRun ℚ :=
  match scaleVector pts with
  | none => CloudRun.outOfRange
  | some v =>
    match maxElement v, minElement v with
    | some hi, some lo =>
      if |hi - lo| = 0 then CloudRun.notFinite
      else CloudRun.returned ((cfg.body_length : ℚ) / |hi - lo|)
    | _, _ => CloudRun.outOfRange

/-- The loop of lines 415-419, with `n` iterations left. -/
def rescaleLoop (scale_factor shift_x shift_y shift_z : ℚ) :
    (n : Nat) → (a : Nat) → PCpts → Option PCpts
  | 0, _, pts => some pts
  | n + 1, a, pts =>
    match pts.get? a with
    | none => none
    | some p =>
      rescaleLoop scale_factor shift_x shift_y shift_z n (a + 1)
        (pts.set a (p.1 * scale_factor + shift_x, p.2.1 * scale_factor + shift_y,
          p.2.2 * scale_factor + shift_z))

/-- Lines 391-419: the rescaling step. -/
def rescale (cfg : CloudCase) (pts : PCpts) : CloudRun PCpts :=
  match scaleFactor cfg pts with
  | CloudRun.returned scale_factor =>
    match minElement pts.x, minElement pts.y, minElement pts.z, maxElement pts.z with
    | some xlo, some ylo, some zlo, some zhi =>
      let shift_x : ℚ := ((⌊(cfg.body_start_x : ℚ) - scale_factor * xlo⌋ : Int) : ℚ)
      let shift_y : ℚ := ((⌊(cfg.body_start_y : ℚ) - scale_factor * ylo⌋ : Int) : ℚ)
      let shift_z : ℚ :=
        ((⌊(cfg.body_centre_z : ℚ) - scale_factor * (zlo + (zhi - zlo) / 2)⌋ : Int) : ℚ)
      match rescaleLoop scale_factor shift_x shift_y shift_z (pts.x.length - 0) 0 pts with
      | none => CloudRun.outOfRange
      | some pts => CloudRun.returned pts
    | _, _, _, _ => CloudRun.outOfRange
  | CloudRun.exited _ _ => CloudRun.outOfRange
  | CloudRun.outOfRange => CloudRun.outOfRange
  | CloudRun.notFinite => CloudRun.notFinite
  | CloudRun.outOfFuel => CloudRun.outOfFuel

/-- Whether the voxel of the point `p` is on this rank (lines 433-438). -/
def onThisRank (env : CloudEnv) (p : ℚ × ℚ × ℚ) : Bool :=
  env.isOnThisRank (env.getVoxInd p.1) (env.getVoxInd p.2.1) (env.getVoxInd p.2.2)

/-- The `do ... while (a < x.size())` loop of lines 430-450 from the start of its body, with
`fuel` bounding the number of iterations; the result is the cloud and the counter `a`. -/
def filterLoop (env : CloudEnv) : (fuel : Nat) → (a : Nat) → PCpts → CloudRun (PCpts × Nat)
  | 0, _, _ => CloudRun.outOfFuel
  | fuel + 1, a, pts =>
    match pts.get? a with
    | none => CloudRun.outOfRange
    | some p =>
      let a1 : Nat := if onThisRank env p then a + 1 else a
      let pts1 : PCpts := if onThisRank env p then pts else pts.erase a
      if a1 < pts1.x.length then filterLoop env fuel a1 pts1
      else CloudRun.returned (pts1, a1)

/-- Lines 429-450: the rank filter, `a = 0; do ... while ...`. -/
def rankFilter (env : CloudEnv) (fuel : Nat) (pts : PCpts) : CloudRun (PCpts × Nat) :=
  filterLoop env fuel 0 pts

/-- The site of the target grid that holds the point `p` (lines 481-485), by local indices. -/
def siteOf (env : CloudEnv) (p : ℚ × ℚ × ℚ) : Int × Int × Int :=
  env.global_to_local (env.getVoxInd p.1) (env.getVoxInd p.2.1) (env.getVoxInd p.2.2)

/-- Lines 488-491: a fluid site at `locals` becomes solid. -/
def labelSite (LatTyp : Int → Int → Int → eType) (locals : Int × Int × Int) :
    Int → Int → Int → eType :=
  if LatTyp locals.1 locals.2.1 locals.2.2 = eType.eFluid then
    fun i j k => if (i, j, k) = locals then eType.eSolid else LatTyp i j k
  else LatTyp

/-- The labelling loop of lines 479-492, with `n` iterations left. -/
def labelLoop (env : CloudEnv) (pts : PCpts) :
    (n : Nat) → (a : Nat) → (Int → Int → Int → eType) → Option (Int → Int → Int → eType)
  | 0, _, LatTyp => some LatTyp
  | n + 1, a, LatTyp =>
    match pts.get? a with
    | none => none
    | some p => labelLoop env pts n (a + 1) (labelSite LatTyp (siteOf env p))

/-- Lines 467-516: what is done with the points left on this rank; `a` is the counter as the
filter leaves it. -/
def cloudAction (env : CloudEnv) (objtype : eObjectType) (a : Nat) (st : CloudState) :
    CloudRun CloudState :=
  if st.pts.x ≠ [] then
    match objtype with
    | eObjectType.eBBBCloud =>
      match labelLoop env st.pts (st.pts.x.length - 0) 0 st.LatTyp with
      | none => CloudRun.outOfRange
      | some LatTyp => CloudRun.returned { st with LatTyp := LatTyp }
    | eObjectType.eBFLCloud =>
      CloudRun.returned
        { st with pts := env.bfl_build_body st.pts, calls := st.calls ++ [BuildCall.bfl st.pts] }
    | eObjectType.eIBBCloud =>
      match st.pts.y[a]?, st.pts.z[a]? with
      | some _, some _ =>
        CloudRun.returned
          { st with pts := env.ibm_build_body st.pts,
                    calls := st.calls ++ [BuildCall.ibm st.pts] }
      | _, _ => CloudRun.outOfRange
  else CloudRun.returned st

/-- `io_readInCloud(_PCpts, objtype)` from the test of the input file on (line 338). `fileOpen`
says whether the input file could be opened, `hasGrid` whether this process holds the target
grid (`g != NULL`), `fileData` holds the values that the read loop (lines 352-378) pushes onto
the three vectors, `cfg` the case-specific variables. -/
def io_readInCloud (env : CloudEnv) (cfg : CloudCase) (objtype : eObjectType)
    (fileOpen hasGrid : Bool) (fileData : PCpts) (st : CloudState) : CloudRun CloudState :=
  if ¬ fileOpen then CloudRun.exited ExitCode.LUMA_FAILED st
  else if ¬ hasGrid then CloudRun.returned st
  else
    let pts : PCpts :=
      { x := st.pts.x ++ fileData.x, y := st.pts.y ++ fileData.y, z := st.pts.z ++ fileData.z }
    if pts.x = [] ∨ pts.y = [] ∨ pts.z = [] then
      CloudRun.exited ExitCode.LUMA_FAILED { st with pts := pts }
    else
      match rescale cfg pts with
      | CloudRun.returned pts =>
        match rankFilter env pts.x.length pts with
        | CloudRun.returned (pts, a) => cloudAction env objtype a { st with pts := pts }
        | CloudRun.exited c _ => CloudRun.exited c { st with pts := pts }
        | CloudRun.outOfRange => CloudRun.outOfRange
        | CloudRun.notFinite => CloudRun.notFinite
        | CloudRun.outOfFuel => CloudRun.outOfFuel
      | CloudRun.exited c _ => CloudRun.exited c { st with pts := pts }
      | CloudRun.outOfRange => CloudRun.outOfRange
      | CloudRun.notFinite => CloudRun.notFinite
      | CloudRun.outOfFuel => CloudRun.outOfFuel

/-- Lines 322-338 of `main` (`L_BFL_ON`): a fresh cloud is read in with `io_readInCloud`, and
the BFL body builder is called if the cloud is not empty afterwards. -/
def main_bfl (env : CloudEnv) (cfg : CloudCase) (fileOpen hasGrid : Bool) (fileData : PCpts)
    (LatTyp : Int → Int → Int → eType) : CloudRun CloudState :=
  match io_readInCloud env cfg eObjectType.eBFLCloud fileOpen hasGrid fileData
      { pts := { x := [], y := [], z := [] }, LatTyp := LatTyp, calls := [] } with
  | CloudRun.returned st =>
    if st.pts.x ≠ [] then
      CloudRun.returned
        { st with pts := env.bfl_build_body st.pts, calls := st.calls ++ [BuildCall.bfl st.pts] }
    else CloudRun.returned st
  | CloudRun.exited c st => CloudRun.exited c st
  | CloudRun.outOfRange => CloudRun.outOfRange
  | CloudRun.notFinite => CloudRun.notFinite
  | CloudRun.outOfFuel => CloudRun.outOfFuel

/-! ## The cloud and the lift/drag file in the words of the specification -/

/-- The points of a cloud, in order: `(x[a], y[a], z[a])`. -/
def points (pts : PCpts) : List (ℚ × ℚ × ℚ) := List.zip pts.x (List.zip pts.y pts.z)

/-- The cloud made of the given points. -/
def ofPoints (l : List (ℚ × ℚ × ℚ)) : PCpts :=
  { x := l.map (fun p => p.1), y := l.map (fun p => p.2.1), z := l.map (fun p => p.2.2) }

/-- Bounding-box dimension `max - min` of a coordinate vector (`0` for an empty one). -/
def extent (v : List ℚ) : ℚ :=
  match maxElement v, minElement v with
  | some hi, some lo => hi - lo
  | _, _ => 0

/-- The coordinate vector of a cloud along a direction. -/
def PCpts.along (pts : PCpts) : eCartesianDirection → List ℚ
  | eCartesianDirection.eXDirection => pts.x
  | eCartesianDirection.eYDirection => pts.y
  | eCartesianDirection.eZDirection => pts.z

/-- The file of one body in the words of the specification: the header, a line with
`force_xyz[0]` and `force_xyz[1]` per marker, the label and the two column sums. -/
def liftDragLayout (timestep : Int) (body : IBBody) : List LdLine :=
  [LdLine.header timestep]
    ++ body.markers.map (fun mk => LdLine.marker mk.force_xyz.1 mk.force_xyz.2.1)
    ++ [LdLine.totalsLabel,
        LdLine.totals (body.markers.map (fun mk => mk.force_xyz.1)).sum
          (body.markers.map (fun mk => mk.force_xyz.2.1)).sum]

/-! ## Concrete clouds and bodies -/

/-- Rigid open body with two markers carrying the forces `(1, 2, 0)` and `(3, 5, 0)`. -/
def forceBody : IBBody :=
  { markers := [{ position := (0, 0, 0), position_old := (0, 0, 0), force_xyz := (1, 2, 0) },
                { position := (1, 0, 0), position_old := (0, 0, 0), force_xyz := (3, 5, 0) }],
    flex_rigid := false, closed_surface := false }

/-- Stand-ins for the routines of `CloudEnv`: the voxel of a coordinate is its integer part, the
rank owns the voxels with `0 ≤ i < 16`, local and global indices agree, and the builders leave
the cloud as it is. -/
def cloudEnv : CloudEnv :=
  { getVoxInd := (fun q => ⌊q⌋),
    isOnThisRank := (fun i _ _ => decide (0 ≤ i ∧ i < 16)),
    global_to_local := (fun i j k => (i, j, k)),
    bfl_build_body := id,
    ibm_build_body := id }

/-- Case-specific variables of a body of length 10 starting at `(5, 5)`, to be scaled along `d`. -/
def cloudCase (d : eCartesianDirection) : CloudCase :=
  { body_length := 10, body_start_x := 5, body_start_y := 5, body_centre_z := 0,
    scale_direction := d }

/-- Cloud of the two points `(0, 0, 0)` and `(1, 2, 0)`: extent 1 along `x` and 2 along `y`. -/
def twoPoints : PCpts := { x := [0, 1], y := [0, 2], z := [0, 0] }

/-- The cloud `twoPoints` after the rescaling step: the points `(5, 5, 0)` and `(15, 25, 0)`. -/
def twoPointsScaled : PCpts := { x := [5, 15], y := [5, 25], z := [0, 0] }

/-- The empty cloud of `new PCpts()`. -/
def emptyCloud : PCpts := { x := [], y := [], z := [] }

end LUMA

namespace LatBo

/-! ## `Gen_ops_generic.cpp` -/

/-- Result of a LatBo helper: a value, `exit(EXIT_FAILURE)` after printing `msg`, or an access
outside a vector's bounds. -/
inductive Result (α : Type) where
  | value (a : α)
  | exitFailure (msg : String)
  | outOfRange
  deriving DecidableEq, Repr

/-- Model of `result.insert(result.begin() + pos, v)`, defined for `pos` up to the size. -/
def vecInsert (result : List ℚ) (pos : Nat) (v : ℚ) : Option (List ℚ) :=
  if pos ≤ result.length then some (result.take pos ++ v :: result.drop pos) else none

/-- The loop `for (int i = 0; i <= n-2; i++)` of `linspace`, with `k` iterations left. -/
def linspaceLoop (min max : ℚ) (n : Int) :
    (k : Nat) → (i : Int) → (count : Nat) → List ℚ → Option (List ℚ × Nat)
  | 0, _, count, result => some (result, count)
  | k + 1, i, count, result =>
    let temp : ℚ := min + (i : ℚ) * (max - min) / (((⌊(n : ℚ)⌋ : Int) : ℚ) - 1)
    match vecInsert result count temp with
    | none => none
    | some result => linspaceLoop min max n k (i + 1) (count + 1) result

/-- `linspace(min, max, n)`. -/
def linspace (min max : ℚ) (n : Int) : Result (List ℚ) :=
  match linspaceLoop min max n (n - 2 + 1).toNat 0 0 [] with
  | none => Result.outOfRange
  | some (result, count) =>
    match vecInsert result count max with
    | none => Result.outOfRange
    | some result => Result.value result

/-- The loop `for (size_t col = 0; col < x.size(); col++)` of `matrix_multiply` for row `row`,
with `k` iterations left: `product[row] += A[row][col] * x[col]`. -/
def multiplyCols (A : List (List ℚ)) (x : List ℚ) (row : Nat) :
    (k : Nat) → (col : Nat) → List ℚ → Option (List ℚ)
  | 0, _, product => some product
  | k + 1, col, product =>
    match A[row]?, x[col]?, product[row]? with
    | some r, some xc, some p =>
      match r[col]? with
      | some a => multiplyCols A x row k (col + 1) (product.set row (p + a * xc))
      | none => none
    | _, _, _ => none

/-- The loop `for (size_t row = 0; row < A.size(); row++)` of `matrix_multiply`, with `k`
iterations left. -/
def multiplyRows (A : List (List ℚ)) (x : List ℚ) :
    (k : Nat) → (row : Nat) → List ℚ → Option (List ℚ)
  | 0, _, product => some product
  | k + 1, row, product =>
    match multiplyCols A x row (x.length - 0) 0 product with
    | none => none
    | some product => multiplyRows A x k (row + 1) product

/-- `matrix_multiply(A, x)`. -/
def matrix_multiply (A : List (List ℚ)) (x : List ℚ) : Result (List ℚ) :=
  match A[0]? with
  | none => Result.outOfRange
  | some a0 =>
    if a0.length ≠ x.length then
      Result.exitFailure "Dimension mismatch -- cannot proceed. Exiting."
    else
      match multiplyRows A x (A.length - 0) 0 (List.replicate x.length 0) with
      | none => Result.outOfRange
      | some product => Result.value product

/-! ## `onespace` and `indmapref` -/

/-- Result of a helper that computes with `int`: a value, a signed overflow (undefined in the
source), or an access outside a vector's bounds. -/
inductive Checked (α : Type) where
  | done (a : α)
  | overflow
  | outOfRange
  deriving DecidableEq, Repr

/-- An integer that an `int` (32 bit) can hold. -/
def fitsInt (n : Int) : Prop := -2147483648 ≤ n ∧ n ≤ 2147483647

instance (n : Int) : Decidable (fitsInt n) := by
  unfold fitsInt
  infer_instance

/-- Result of an `int` operation whose exact value is `n`: `none` when it overflows. -/
def asInt (n : Int) : Option Int := if fitsInt n then some n else none

/-- Model of `v.insert(v.begin() + pos, a)` for a `vector<int>`, defined for `pos` up to the
size. -/
def intInsert (v : List Int) (pos : Nat) (a : Int) : Option (List Int) :=
  if pos ≤ v.length then some (v.take pos ++ a :: v.drop pos) else none

/-- The loop `for (int i = 0; i <= (max-min); i++)` of `onespace` from the test of its condition
on, with at most `k` iterations left. -/
def onespaceLoop (min max : Int) : (k : Nat) → (i : Int) → List Int → Checked (List Int)
  | 0, _, result => Checked.done result
  | k + 1, i, result =>
    match asInt (max - min) with
    | none => Checked.overflow
    | some d =>
      if i ≤ d then
        match asInt (min + i) with
        | none => Checked.overflow
        | some v =>
          match intInsert result i.toNat v with
          | none => Checked.outOfRange
          | some result =>
            match asInt (i + 1) with
            | none => Checked.overflow
            | some i1 => onespaceLoop min max k i1 result
      else Checked.done result

/-- `onespace(min, max)`. The loop runs at most `max - min + 1` times and its condition is
tested once more after the last iteration. -/
def onespace (min max : Int) : Checked (List Int) :=
  onespaceLoop min max ((max - min + 1).toNat + 1) 0 []

/-- The expression `2*(coarse - start + 1) - 2` of `indmapref`, operation by operation. -/
def fineIndex (coarse start : Int) : Option Int :=
  match asInt (coarse - start) with
  | none => none
  | some d =>
    match asInt (d + 1) with
    | none => none
    | some d1 =>
      match asInt (2 * d1) with
      | none => none
      | some m => asInt (m - 2)

/-- `indmapref(coarse_i, x_start, coarse_j, y_start, coarse_k, z_start)`. -/
def indmapref (coarse_i x_start coarse_j y_start coarse_k z_start : Int) : Checked (List Int) :=
  match fineIndex coarse_i x_start with
  | none => Checked.overflow
  | some fi =>
    match intInsert [] 0 fi with
    | none => Checked.outOfRange
    | some fine_ind =>
      match fineIndex coarse_j y_start with
      | none => Checked.overflow
      | some fj =>
        match intInsert fine_ind 1 fj with
        | none => Checked.outOfRange
        | some fine_ind =>
          match fineIndex coarse_k z_start with
          | none => Checked.overflow
          | some fk =>
            match intInsert fine_ind 2 fk with
            | none => Checked.outOfRange
            | some fine_ind => Checked.done fine_ind

/-! ## `GridObj::io_tecplot` -/

/-- Names of the `VARIABLES` line of the Tecplot header. -/
inductive Column where
  | X | Y | Z | RHO | UX | UY | UZ | TA_RHO | TA_UX | TA_UY | TA_UZ
  | TA_UXUX | TA_UXUY | TA_UXUZ | TA_UYUY | TA_UYUZ | TA_UZUZ
  deriving DecidableEq, Repr

/-- Line of a Tecplot file written by `io_tecplot`. -/
inductive TecLine where
  | title (level region : Int)
  | filetype
  | variables (names : List Column)
  | zone
  | ijk (i_count j_count k_count : Int)
  | zonetype
  | solutiontime (t : ℚ)
  | data (row : List ℚ)
  deriving DecidableEq, Repr

/-- Configuration macros and globals read by `io_tecplot` (declared outside the sources at hand):
`dims`, the level-0 sizes `N`, `M`, `K`, the limits of the refined regions indexed by level and
region, whether `BUILD_FOR_MPI` is defined, and `GridUtils::isOnRecvLayer`. -/
structure TecConfig where
  dims : Nat
  N : Int
  M : Int
  K : Int
  RefXstart : Int → Int → Int
  RefXend : Int → Int → Int
  RefYstart : Int → Int → Int
  RefYend : Int → Int → Int
  RefZstart : Int → Int → Int
  RefZend : Int → Int → Int
  BUILD_FOR_MPI : Bool
  isOnRecvLayer : ℚ → ℚ → ℚ → Bool

/-- Members of `GridObj` read by `io_tecplot`. The field arrays are functions of the site indices
`i j k` (and of the component `v`), which is what their accessors compute from the flat storage. -/
structure GridObj where
  level : Int
  region_number : Int
  XInd : List Int
  YInd : List Int
  ZInd : List Int
  XPos : List ℚ
  YPos : List ℚ
  ZPos : List ℚ
  rho : Nat → Nat → Nat → ℚ
  u : Nat → Nat → Nat → Nat → ℚ
  rho_timeav : Nat → Nat → Nat → ℚ
  ui_timeav : Nat → Nat → Nat → Nat → ℚ
  uiuj_timeav : Nat → Nat → Nat → Nat → ℚ

/-- Lines 35-55: the numbers of sites `i_count`, `j_count`, `k_count` declared in the header. -/
def tecCounts (cfg : TecConfig) (g : GridObj) : Int × Int × Int :=
  if g.level = 0 then
    (cfg.N, cfg.M, if cfg.dims = 3 then cfg.K else 1)
  else
    ((cfg.RefXend (g.level - 1) g.region_number - cfg.RefXstart (g.level - 1) g.region_number + 1)
        * 2,
     (cfg.RefYend (g.level - 1) g.region_number - cfg.RefYstart (g.level - 1) g.region_number + 1)
        * 2,
     if cfg.dims = 3 then
       (cfg.RefZend (g.level - 1) g.region_number
          - cfg.RefZstart (g.level - 1) g.region_number + 1) * 2
     else 1)

/-- The names on the `VARIABLES` line (lines 60-61), in the order written. -/
def VARIABLES : List Column :=
  [Column.X, Column.Y, Column.Z, Column.RHO, Column.UX, Column.UY, Column.UZ, Column.TA_RHO,
   Column.TA_UX, Column.TA_UY, Column.TA_UZ, Column.TA_UXUX, Column.TA_UXUY, Column.TA_UXUZ,
   Column.TA_UYUY, Column.TA_UYUZ, Column.TA_UZUZ]

/-- Lines 57-70: the header. -/
def tecHeader (cfg : TecConfig) (g : GridObj) (tval : ℚ) : List TecLine :=
  [TecLine.title g.level g.region_number, TecLine.filetype, TecLine.variables VARIABLES,
   TecLine.zone,
   TecLine.ijk (tecCounts cfg g).1 (tecCounts cfg g).2.1 (tecCounts cfg g).2.2,
   TecLine.zonetype, TecLine.solutiontime tval]

/-- A loop `for (v = 0; v < dims; v++) tecfile << f(v)`, with `n` iterations left. -/
def tecComponents (f : Nat → ℚ) : (n : Nat) → (v : Nat) → List ℚ → List ℚ
  | 0, _, row => row
  | n + 1, v, row => tecComponents f n (v + 1) (row ++ [f v])

/-- Lines 89-128: the values of the row of site `i j k`, whose position is `x y z`. -/
def tecRow (cfg : TecConfig) (g : GridObj) (i j k : Nat) (x y z : ℚ) : List ℚ :=
  let row := [x, y, z]
  let row := row ++ [g.rho i j k]
  let row := tecComponents (g.u i j k) (cfg.dims - 0) 0 row
  let row := if cfg.dims ≠ 3 then row ++ [0] else row
  let row := row ++ [g.rho_timeav i j k]
  let row := tecComponents (g.ui_timeav i j k) (cfg.dims - 0) 0 row
  let row := if cfg.dims ≠ 3 then row ++ [0] else row
  let row := row ++ [g.uiuj_timeav i j k 0]
  let row := row ++ [g.uiuj_timeav i j k 1]
  let row := if cfg.dims = 3 then row ++ [g.uiuj_timeav i j k 2] else row ++ [0]
  if cfg.dims = 3 then
    row ++ [g.uiuj_timeav i j k 3, g.uiuj_timeav i j k 4, g.uiuj_timeav i j k 5]
  else row ++ [g.uiuj_timeav i j k 2, 0, 0]

/-- The loop over `i` (line 80) for fixed `k` and `j`, with `n` iterations left. -/
def tecLoopI (cfg : TecConfig) (g : GridObj) (k j : Nat) :
    (n : Nat) → (i : Nat) → List TecLine → Option (List TecLine)
  | 0, _, out => some out
  | n + 1, i, out =>
    match g.XPos[i]?, g.YPos[j]?, g.ZPos[k]? with
    | some x, some y, some z =>
      if cfg.BUILD_FOR_MPI ∧ cfg.isOnRecvLayer x y z then tecLoopI cfg g k j n (i + 1) out
      else tecLoopI cfg g k j n (i + 1) (out ++ [TecLine.data (tecRow cfg g i j k x y z)])
    | _, _, _ => none

/-- The loop over `j` (line 79) for fixed `k`, with `n` iterations left. -/
def tecLoopJ (cfg : TecConfig) (g : GridObj) (k : Nat) :
    (n : Nat) → (j : Nat) → List TecLine → Option (List TecLine)
  | 0, _, out => some out
  | n + 1, j, out =>
    match tecLoopI cfg g k j (g.XInd.length - 0) 0 out with
    | none => none
    | some out => tecLoopJ cfg g k n (j + 1) out

/-- The loop over `k` (line 78), with `n` iterations left. -/
def tecLoopK (cfg : TecConfig) (g : GridObj) :
    (n : Nat) → (k : Nat) → List TecLine → Option (List TecLine)
  | 0, _, out => some out
  | n + 1, k, out =>
    match tecLoopJ cfg g k (g.YInd.length - 0) 0 out with
    | none => none
    | some out => tecLoopK cfg g n (k + 1) out

/-- `io_tecplot(tval)` on one grid: the lines this call appends to the file of the grid
(`exists_flag` says whether the file was there before), `none` when a position vector is indexed outside its
bounds. Lines 138-143 then run the same routine on each sub-grid. -/
def io_tecplot (cfg : TecConfig) (g : GridObj) (tval : ℚ) (exists_flag : Bool) :
    Option (List TecLine) :=
  let out : List TecLine := if ¬ exists_flag then tecHeader cfg g tval else []
  tecLoopK cfg g (g.ZInd.length - 0) 0 out

/-! ## The Tecplot columns in the words of the specification -/

/-- What each column of the row of site `i j k` (position `x y z`) holds: in a build that is not
three-dimensional the `z` components are `0` and the products `UXUX`, `UXUY`, `UYUY` are the
stored products `0`, `1`, `2`; in a three-dimensional build the six products are stored in the
order of the header. -/
def columnValue (dims : Nat) (g : GridObj) (i j k : Nat) (x y z : ℚ) : Column → ℚ
  | Column.X => x
  | Column.Y => y
  | Column.Z => z
  | Column.RHO => g.rho i j k
  | Column.UX => g.u i j k 0
  | Column.UY => g.u i j k 1
  | Column.UZ => if dims = 3 then g.u i j k 2 else 0
  | Column.TA_RHO => g.rho_timeav i j k
  | Column.TA_UX => g.ui_timeav i j k 0
  | Column.TA_UY => g.ui_timeav i j k 1
  | Column.TA_UZ => if dims = 3 then g.ui_timeav i j k 2 else 0
  | Column.TA_UXUX => g.uiuj_timeav i j k 0
  | Column.TA_UXUY => g.uiuj_timeav i j k 1
  | Column.TA_UXUZ => if dims = 3 then g.uiuj_timeav i j k 2 else 0
  | Column.TA_UYUY => if dims = 3 then g.uiuj_timeav i j k 3 else g.uiuj_timeav i j k 2
  | Column.TA_UYUZ => if dims = 3 then g.uiuj_timeav i j k 4 else 0
  | Column.TA_UZUZ => if dims = 3 then g.uiuj_timeav i j k 5 else 0

/-- A line is the data row of some site of the grid, column by column as `columnValue` says. -/
def isSiteRow (cfg : TecConfig) (g : GridObj) (line : TecLine) : Prop :=
  ∃ (i j k : Nat) (x y z : ℚ), g.XPos[i]? = some x ∧ g.YPos[j]? = some y ∧ g.ZPos[k]? = some z ∧
    line = TecLine.data (VARIABLES.map (columnValue cfg.dims g i j k x y z))

/-! ## Concrete grids -/

/-- Two-dimensional configuration with one refined region covering coarse sites 1 to 2. -/
def tecConfig2D : TecConfig :=
  { dims := 2, N := 4, M := 4, K := 1,
    RefXstart := (fun _ _ => 1), RefXend := (fun _ _ => 2),
    RefYstart := (fun _ _ => 1), RefYend := (fun _ _ => 2),
    RefZstart := (fun _ _ => 0), RefZend := (fun _ _ => 0),
    BUILD_FOR_MPI := false, isOnRecvLayer := (fun _ _ _ => false) }

/-- Level-1 grid of two sites along `x`. -/
def tecGrid : GridObj :=
  { level := 1, region_number := 0, XInd := [0, 1], YInd := [0], ZInd := [0],
    XPos := [0, 1], YPos := [0], ZPos := [0],
    rho := (fun _ _ _ => 1), u := (fun _ _ _ v => 10 + (v : ℚ)),
    rho_timeav := (fun _ _ _ => 2), ui_timeav := (fun _ _ _ v => 20 + (v : ℚ)),
    uiuj_timeav := (fun _ _ _ v => 30 + (v : ℚ)) }

/-- Three-dimensional configuration with one refined region covering coarse sites 1 to 2 on
every axis. -/
def tecConfig3D : TecConfig :=
  { dims := 3, N := 4, M := 4, K := 4,
    RefXstart := (fun _ _ => 1), RefXend := (fun _ _ => 2),
    RefYstart := (fun _ _ => 1), RefYend := (fun _ _ => 2),
    RefZstart := (fun _ _ => 1), RefZend := (fun _ _ => 2),
    BUILD_FOR_MPI := false, isOnRecvLayer := (fun _ _ _ => false) }

end LatBo

/-! # Theorems -/

namespace LUMA

/-! ## Restart: body-count check -/

theorem toSizeT_ne_of_small (len : Nat) (n : Int) (hlen : len < 2147483647)
    (h : (len : Int) ≠ n) (hlo : INT_MIN ≤ n) (hhi : n ≤ INT_MAX) : len ≠ toSizeT n := by
  unfold toSizeT
  unfold INT_MIN at hlo
  unfold INT_MAX at hhi
  intro hc
  by_cases hn : 0 ≤ n
  · rw [Int.emod_eq_of_lt hn (by omega)] at hc
    omega
  · have h1 : n % 18446744073709551616 = n + 18446744073709551616 := by
      rw [← Int.add_emod_self]
      exact Int.emod_eq_of_lt (by omega) (by omega)
    rw [h1] at hc
    omega

theorem readInt_fst_ne (len : Nat) (q : ℚ) (r : List Tok) (v : Int) (hlen : len < 2147483647)
    (h : (len : Int) ≠ Int.tdiv q.num q.den) :
    len ≠ toSizeT (ISS.readInt { buf := Tok.num q :: r, fail := false } v).1 := by
  simp only [ISS.readInt, Bool.false_eq_true, if_false]
  by_cases h1 : Int.tdiv q.num q.den > INT_MAX
  · rw [if_pos h1]
    exact toSizeT_ne_of_small len INT_MAX hlen (by unfold INT_MAX; omega) (by decide) (by decide)
  · rw [if_neg h1]
    by_cases h2 : Int.tdiv q.num q.den < INT_MIN
    · rw [if_pos h2]
      exact toSizeT_ne_of_small len INT_MIN hlen (by unfold INT_MIN; omega) (by decide) (by decide)
    · rw [if_neg h2]
      exact toSizeT_ne_of_small len _ hlen h (not_lt.mp h2) (not_lt.mp h1)

/-- C1: loading at level 0 a snapshot whose leading body count `n` differs from the number of
live bodies exits with `LUMA_FAILED`, and the object manager at the exit is the one the call
started with, so no marker has been touched. The bound on the number of live bodies is the one
under which an `int` can hold it. -/
theorem io_restart_load_body_count_mismatch (om : ObjectManager) (snap : List Item) (n : Int)
    (my_rank num_bod0 num_mark0 : Int)
    (hlen : om.iBody.length < 2147483647)
    (hlead : leadingCount snap = some n)
    (hne : (om.iBody.length : Int) ≠ n) :
    io_restart false 0 my_rank num_bod0 num_mark0 (om, some snap)
      = Outcome.exited ExitCode.LUMA_FAILED (om, some snap) := by
  match snap, hlead with
  | Item.tok (Tok.num q) :: rest, hlead =>
    simp only [leadingCount, Option.some.injEq] at hlead
    subst hlead
    have hk := readInt_fst_ne om.iBody.length q (getline rest).1 num_bod0 hlen hne
    simp only [io_restart, io_restart_load, getline, ISS.str, ISS.seekg0, if_true]
    simp [hk]

/-- C1 at a registry of one body and a snapshot that announces two. -/
theorem io_restart_load_body_count_mismatch_witness :
    liveOne.iBody.length < 2147483647 ∧ leadingCount snapshotTwo = some 2
      ∧ (liveOne.iBody.length : Int) ≠ 2
      ∧ io_restart false 0 0 0 0 (liveOne, some snapshotTwo)
          = Outcome.exited ExitCode.LUMA_FAILED (liveOne, some snapshotTwo) :=
  ⟨by decide, by decide, by decide,
    io_restart_load_body_count_mismatch liveOne snapshotTwo 2 0 0 0 (by decide) (by decide)
      (by decide)⟩

/-! ## Restart: marker-count check and round trip -/

/-- C2, evaluated at a failing input: `snapshotTwo` is what the save mode writes for a registry
with marker counts `[1, 2]`; the live registry has two bodies with marker counts `[1, 1]`, so the
count recorded for body 1 differs from the live one, and yet the load returns normally. -/
theorem io_restart_load_misses_marker_count :
    io_restart true 0 0 0 0 (savedTwo, none) = Outcome.returned (savedTwo, some snapshotTwo)
      ∧ liveTwo.iBody.length = savedTwo.iBody.length
      ∧ liveTwo.iBody.map (fun b => b.markers.length) = [1, 1]
      ∧ savedTwo.iBody.map (fun b => b.markers.length) = [1, 2]
      ∧ ∀ num_bod0 num_mark0 : Int,
          io_restart false 0 0 num_bod0 num_mark0 (liveTwo, some snapshotTwo)
            = Outcome.returned (liveTwo, some snapshotTwo) := by
  refine ⟨by decide, by decide, by decide, by decide, ?_⟩
  intro num_bod0 num_mark0
  rfl

/-- C3, evaluated at two failing inputs. Loading the snapshot of `savedOne` into `liveOne` (same
body count, marker counts and flags) returns with the marker still at `(0, 0, 0)` instead of the
written `(1, 2, 3)`; loading the snapshot of `savedTwo` into `savedTwo` itself exits with
`LUMA_FAILED`. -/
theorem io_restart_round_trip_fails :
    io_restart true 0 0 0 0 (savedOne, none) = Outcome.returned (savedOne, some snapshotOne)
      ∧ (∀ num_bod0 num_mark0 : Int,
          io_restart false 0 0 num_bod0 num_mark0 (liveOne, some snapshotOne)
            = Outcome.returned (liveOne, some snapshotOne))
      ∧ liveOne.iBody.map (fun b => b.markers.map (fun m => m.position)) = [[(0, 0, 0)]]
      ∧ savedOne.iBody.map (fun b => b.markers.map (fun m => m.position)) = [[(1, 2, 3)]]
      ∧ io_restart true 0 0 0 0 (savedTwo, none) = Outcome.returned (savedTwo, some snapshotTwo)
      ∧ ∀ num_bod0 num_mark0 : Int,
          io_restart false 0 0 num_bod0 num_mark0 (savedTwo, some snapshotTwo)
            = Outcome.exited ExitCode.LUMA_FAILED (savedTwo, some snapshotTwo) := by
  refine ⟨by decide, ?_, by decide, by decide, by decide, ?_⟩
  · intro num_bod0 num_mark0
    rfl
  · intro num_bod0 num_mark0
    rfl

/-! ## Restart: layout of the snapshot -/

theorem saveMarker_eq (flex : Bool) (mk : IBMarker) (out : List Item) :
    saveMarker flex mk out = out ++ markerFields flex mk := by
  cases flex <;> simp [saveMarker, markerFields]

theorem saveMarkers_eq (body : IBBody) :
    ∀ (k m : Nat) (out : List Item), k = body.markers.length - m →
      saveMarkers body k m out
        = some (out ++ (body.markers.drop m).flatMap (markerFields body.flex_rigid)) := by
  intro k
  induction k with
  | zero =>
    intro m out hk
    have hm : body.markers.length ≤ m := by omega
    simp [saveMarkers, List.drop_eq_nil_of_le hm]
  | succ k ih =>
    intro m out hk
    have hm : m < body.markers.length := by omega
    rw [saveMarkers, List.getElem?_eq_getElem hm]
    simp only
    rw [ih (m + 1) _ (by omega), saveMarker_eq, List.drop_eq_getElem_cons hm,
      List.flatMap_cons, List.append_assoc]

theorem saveBodies_eq (iBody : List IBBody) :
    ∀ (k b : Nat) (out : List Item), k = iBody.length - b →
      saveBodies iBody k b out
        = some (out ++ (iBody.drop b).flatMap (fun body =>
            [Item.sep, put (body.markers.length : ℚ), Item.sep] ++ coordFields body)) := by
  intro k
  induction k with
  | zero =>
    intro b out hk
    have hb : iBody.length ≤ b := by omega
    simp [saveBodies, List.drop_eq_nil_of_le hb]
  | succ k ih =>
    intro b out hk
    have hb : b < iBody.length := by omega
    rw [saveBodies, List.getElem?_eq_getElem hb]
    simp only
    rw [saveMarkers_eq _ _ 0 _ rfl]
    simp only
    rw [ih (b + 1) _ (by omega), List.drop_eq_getElem_cons hb, List.flatMap_cons]
    simp [coordFields]

theorem saveText_eq (om : ObjectManager) : saveText om = some (snapshotLayout om.iBody) := by
  unfold saveText
  simp only
  rw [saveBodies_eq om.iBody _ 0 _ rfl]
  simp [snapshotLayout]

theorem coordFields_length (body : IBBody) :
    (coordFields body).length
      = if body.flex_rigid then 6 * body.markers.length else 3 * body.markers.length := by
  unfold coordFields
  induction body.markers with
  | nil => simp
  | cons mk l ih =>
    rw [List.flatMap_cons, List.length_append, ih]
    cases body.flex_rigid <;> simp [markerFields] <;> omega

/-- C4: at level 0 the save mode leaves in the file (after the old contents when the rank is not
0) exactly `snapshotLayout`: the body count, then per body in index order the separator `/`, the
marker count, the separator, and per marker in order the three position coordinates followed by
the three previous-position coordinates exactly when the body is flexible; the coordinate fields
of a body number `6 * n` when it is flexible and `3 * n` when it is rigid. -/
theorem io_restart_save_layout (om : ObjectManager) (my_rank num_bod0 num_mark0 : Int)
    (old : Option (List Item)) :
    io_restart true 0 my_rank num_bod0 num_mark0 (om, old)
        = Outcome.returned
            (om, some ((if my_rank = 0 then [] else old.getD []) ++ snapshotLayout om.iBody))
      ∧ ∀ body ∈ om.iBody,
          (coordFields body).length
            = if body.flex_rigid then 6 * body.markers.length else 3 * body.markers.length := by
  refine ⟨?_, fun body _ => coordFields_length body⟩
  by_cases hr : my_rank = 0
  · simp [io_restart, io_restart_save, saveText_eq, hr]
  · simp [io_restart, io_restart_save, saveText_eq, hr]

/-! ## Force report -/

/-- C5: when the process holds the grid of the object, `io_writeForceOnObject` appends one row
(after the header when `(int)tval == 0`) and leaves the three components of the force accumulator
equal to zero, whatever the time value and the accumulator were. -/
theorem io_writeForceOnObject_resets (L_object_on_grid_lev dims : Int) (tval : ℚ)
    (om : ObjectManager) (fout : List CsvLine) :
    (io_writeForceOnObject true L_object_on_grid_lev dims tval (om, fout)).1.force_on_object_x = 0
      ∧ (io_writeForceOnObject true L_object_on_grid_lev dims tval (om, fout)).1.force_on_object_y
          = 0
      ∧ (io_writeForceOnObject true L_object_on_grid_lev dims tval (om, fout)).1.force_on_object_z
          = 0
      ∧ ∃ fx fy fz : ℚ,
          (io_writeForceOnObject true L_object_on_grid_lev dims tval (om, fout)).2
            = (fout ++ if castInt tval = 0 then [CsvLine.header] else [])
                ++ [CsvLine.row tval fx fy fz] := by
  refine ⟨rfl, rfl, rfl, ?_⟩
  refine ⟨om.force_on_object_x / (2 : ℚ) ^ L_object_on_grid_lev,
    om.force_on_object_y / (2 : ℚ) ^ L_object_on_grid_lev,
    if dims = 3 then om.force_on_object_z / (2 : ℚ) ^ L_object_on_grid_lev else 0, ?_⟩
  simp only [io_writeForceOnObject, if_true]
  split_ifs <;> simp

/-! ## VTK connectivity -/

theorem vtkPoints_eq (L_dims : Nat) (body : IBBody) :
    ∀ (k i : Nat) (fout : List VtkLine), k = body.markers.length - i →
      vtkPoints L_dims body k i fout
        = some (fout ++ (body.markers.drop i).map (fun mk =>
            if L_dims = 3 then VtkLine.point mk.position.1 mk.position.2.1 mk.position.2.2
            else VtkLine.point mk.position.1 mk.position.2.1 1)) := by
  intro k
  induction k with
  | zero =>
    intro i fout hk
    have hi : body.markers.length ≤ i := by omega
    simp [vtkPoints, List.drop_eq_nil_of_le hi]
  | succ k ih =>
    intro i fout hk
    have hi : i < body.markers.length := by omega
    rw [vtkPoints, List.getElem?_eq_getElem hi]
    simp only
    rw [ih (i + 1) _ (by omega), List.drop_eq_getElem_cons hi, List.map_cons, List.append_assoc]
    rfl

theorem vtkSegments_eq :
    ∀ (k i : Nat) (fout : List VtkLine),
      vtkSegments k i fout
        = fout ++ (List.range k).map (fun j => VtkLine.cell 2 (i + j) (i + j + 1)) := by
  intro k
  induction k with
  | zero => intro i fout; simp [vtkSegments]
  | succ k ih =>
    intro i fout
    rw [vtkSegments, ih, List.range_succ_eq_map, List.map_cons, List.map_map, List.append_assoc]
    simp only [List.singleton_append, Nat.add_zero, List.cons.injEq, true_and,
      List.append_cancel_left_eq]
    apply List.map_congr_left
    intro j _
    simp only [Function.comp]
    congr 1 <;> omega

theorem toSizeT_natCast (n : Nat) (h : n < 18446744073709551616) : toSizeT (n : Int) = n := by
  unfold toSizeT
  rw [Int.emod_eq_of_lt (by omega) (by omega)]
  simp

theorem vtkConnectivity_eq (body : IBBody) (fout : List VtkLine)
    (hn : 1 ≤ body.markers.length) (h3 : 3 * body.markers.length < 18446744073709551616) :
    vtkConnectivity body fout
      = fout ++ [VtkLine.lines (bodySegments body).length (3 * (bodySegments body).length)]
          ++ bodySegments body := by
  have h1 : toSizeT ((body.markers.length : Int) - 1) = body.markers.length - 1 := by
    have : ((body.markers.length : Int) - 1) = ((body.markers.length - 1 : Nat) : Int) := by
      omega
    rw [this, toSizeT_natCast _ (by omega)]
  have h2 : toSizeT (3 * ((body.markers.length - 1 : Nat) : Int))
      = 3 * (body.markers.length - 1) := by
    have : (3 * ((body.markers.length - 1 : Nat) : Int))
        = ((3 * (body.markers.length - 1) : Nat) : Int) := by omega
    rw [this, toSizeT_natCast _ (by omega)]
  have h3 : toSizeT (((body.markers.length - 1 : Nat) : Int) + 1) = body.markers.length := by
    have : (((body.markers.length - 1 : Nat) : Int) + 1) = ((body.markers.length : Nat) : Int) := by
      omega
    rw [this, toSizeT_natCast _ (by omega)]
  have h4 : toSizeT (3 * (body.markers.length : Int)) = 3 * body.markers.length := by
    have : (3 * (body.markers.length : Int)) = ((3 * body.markers.length : Nat) : Int) := by
      omega
    rw [this, toSizeT_natCast _ (by omega)]
  unfold vtkConnectivity bodySegments
  simp only [h1, h2, h3, h4, vtkSegments_eq, Nat.sub_zero, Nat.zero_add]
  cases hc : body.closed_surface
  · simp
  · simp
    omega

theorem vtkFile_eq (L_dims : Nat) (ib : Nat) (tval : ℚ) (body : IBBody) :
    vtkFile L_dims ib tval body
      = some (vtkConnectivity body (vtkPreamble L_dims ib tval body)) := by
  unfold vtkFile
  simp only
  rw [vtkPoints_eq L_dims body _ 0 _ rfl]
  simp [vtkPreamble]

theorem vtkBodies_spec (L_dims : Nat) (iBody : List IBBody) (tval : ℚ) :
    ∀ (k ib : Nat) (files : List (List VtkLine)), k = iBody.length - ib → ib ≤ iBody.length →
      files.length = ib →
      ∃ out, vtkBodies L_dims iBody tval k ib files = some out ∧ out.length = iBody.length ∧
        (∀ j, j < ib → out[j]? = files[j]?) ∧
        (∀ j body, ib ≤ j → iBody[j]? = some body →
          out[j]? = some (vtkConnectivity body (vtkPreamble L_dims j tval body))) := by
  intro k
  induction k with
  | zero =>
    intro ib files hk hle hlen
    refine ⟨files, rfl, by omega, fun _ _ => rfl, ?_⟩
    intro j body hj hb
    have : j < iBody.length := (List.getElem?_eq_some_iff.mp hb).1
    omega
  | succ k ih =>
    intro ib files hk hle hlen
    have hib : ib < iBody.length := by omega
    rw [vtkBodies, List.getElem?_eq_getElem hib]
    simp only [vtkFile_eq]
    obtain ⟨out, hout, hl, hlow, hhigh⟩ := ih (ib + 1)
      (files ++ [vtkConnectivity iBody[ib] (vtkPreamble L_dims ib tval iBody[ib])])
      (by omega) (by omega) (by simp [hlen])
    refine ⟨out, hout, hl, ?_, ?_⟩
    · intro j hj
      rw [hlow j (by omega), List.getElem?_append_left (by omega)]
    · intro j body hj hb
      by_cases hjeq : j = ib
      · subst hjeq
        rw [List.getElem?_eq_getElem hib] at hb
        injection hb with hb
        subst hb
        rw [hlow j (by omega), List.getElem?_append_right (by omega)]
        simp [hlen]
      · exact hhigh j body (by omega) hb

/-- C6: for body `ib` with `n ≥ 1` markers the file written by `io_vtk_IBwriter` is the preamble,
the `LINES` header and the segments `bodySegments`: segment `i` joins marker `i` to marker `i + 1`
for `i = 0 .. n - 2`, a closed body gets one more segment from marker `n - 1` to marker `0`; the
header declares the number of segments written and three times that number; there are `n - 1`
segments for an open body and `n` for a closed one. The bound on `n` is the one under which
`3 * n` fits a `size_t`. -/
theorem io_vtk_IBwriter_connectivity (L_dims : Nat) (om : ObjectManager) (tval : ℚ)
    (ib : Nat) (body : IBBody) (hb : om.iBody[ib]? = some body)
    (hn : 1 ≤ body.markers.length) (h3 : 3 * body.markers.length < 18446744073709551616) :
    ∃ files, io_vtk_IBwriter L_dims om tval = some files ∧ files.length = om.iBody.length ∧
      files[ib]? = some (vtkPreamble L_dims ib tval body
        ++ [VtkLine.lines (bodySegments body).length (3 * (bodySegments body).length)]
        ++ bodySegments body) ∧
      bodySegments body
        = (List.range (body.markers.length - 1)).map (fun i => VtkLine.cell 2 i (i + 1))
            ++ (if body.closed_surface then [VtkLine.cell 2 (body.markers.length - 1) 0]
                else []) ∧
      (bodySegments body).length
        = if body.closed_surface then body.markers.length else body.markers.length - 1 := by
  obtain ⟨out, hout, hl, _, hhigh⟩ :=
    vtkBodies_spec L_dims om.iBody tval (om.iBody.length - 0) 0 [] rfl (Nat.zero_le _) rfl
  refine ⟨out, hout, hl, ?_, rfl, ?_⟩
  · rw [hhigh ib body (Nat.zero_le _) hb, vtkConnectivity_eq body _ hn h3]
  · unfold bodySegments
    cases body.closed_surface
    · simp
    · simp
      omega

/-- C6 at a closed body of three markers. -/
theorem io_vtk_IBwriter_connectivity_closed_triangle :
    (managerOf [closedTriangle]).iBody[0]? = some closedTriangle
      ∧ 1 ≤ closedTriangle.markers.length
      ∧ 3 * closedTriangle.markers.length < 18446744073709551616
      ∧ ∃ files, io_vtk_IBwriter 3 (managerOf [closedTriangle]) 7 = some files ∧
          files.length = 1 ∧
          files[0]? = some
            [VtkLine.version, VtkLine.title 0 7, VtkLine.ascii, VtkLine.dataset,
              VtkLine.points 3, VtkLine.point 0 0 0, VtkLine.point 1 0 0, VtkLine.point 1 1 0,
              VtkLine.lines 3 9, VtkLine.cell 2 0 1, VtkLine.cell 2 1 2, VtkLine.cell 2 2 0] := by
  refine ⟨rfl, by decide, by decide, ?_⟩
  obtain ⟨files, h1, h2, h3, _, _⟩ :=
    io_vtk_IBwriter_connectivity 3 (managerOf [closedTriangle]) 7 0 closedTriangle rfl
      (by decide) (by decide)
  exact ⟨files, h1, h2, h3⟩

/-! ## Start-up check on the rank grid -/

/-- C7: in an MPI build `main` exits with `LUMA_FAILED` without having constructed the level-0
grid exactly when `L_Xcores < 2`, or `L_Ycores < 2`, or the build is three-dimensional and
`L_Zcores < 2`. -/
theorem main_startup_core_check (L_dims L_NumLev : Nat) (L_Xcores L_Ycores L_Zcores : Int) :
    (∃ tr, main_startup true L_dims L_NumLev L_Xcores L_Ycores L_Zcores
          = Outcome.exited ExitCode.LUMA_FAILED tr ∧ StartupStep.constructGrid ∉ tr)
      ↔ (L_Xcores < 2 ∨ L_Ycores < 2 ∨ (L_dims = 3 ∧ L_Zcores < 2)) := by
  unfold main_startup
  by_cases hc : L_Xcores < 2 ∨ L_Ycores < 2 ∨ (L_dims = 3 ∧ L_Zcores < 2)
  · simp only [hc, iff_true, if_true, true_and]
    refine ⟨_, rfl, ?_⟩
    split_ifs <;> simp
  · simp [hc]

/-! ## Lift and drag totals -/

theorem liftDragMarkers_eq (body : IBBody) :
    ∀ (k i : Nat) (st : List LdLine × ℚ × ℚ), k = body.markers.length - i →
      liftDragMarkers body k i st
        = some (st.1 ++ (body.markers.drop i).map
              (fun mk => LdLine.marker mk.force_xyz.1 mk.force_xyz.2.1),
            st.2.1 + ((body.markers.drop i).map (fun mk => mk.force_xyz.1)).sum,
            st.2.2 + ((body.markers.drop i).map (fun mk => mk.force_xyz.2.1)).sum) := by
  intro k
  induction k with
  | zero =>
    intro i st hk
    have hi : body.markers.length ≤ i := by omega
    simp [liftDragMarkers, List.drop_eq_nil_of_le hi]
  | succ k ih =>
    intro i st hk
    have hi : i < body.markers.length := by omega
    rw [liftDragMarkers, List.getElem?_eq_getElem hi]
    simp only
    rw [ih (i + 1) _ (by omega), List.drop_eq_getElem_cons hi]
    simp only [List.map_cons, List.sum_cons, List.append_assoc, List.singleton_append, add_assoc]

theorem liftDragFile_eq (timestep : Int) (body : IBBody) :
    liftDragFile timestep body = some (liftDragLayout timestep body) := by
  unfold liftDragFile
  rw [liftDragMarkers_eq body _ 0 _ rfl]
  simp [liftDragLayout]

theorem liftDragBodies_spec (timestep : Int) (iBody : List IBBody) :
    ∀ (k ib : Nat) (files : List (List LdLine)), k = iBody.length - ib → ib ≤ iBody.length →
      files.length = ib →
      ∃ out, liftDragBodies timestep iBody k ib files = some out ∧ out.length = iBody.length ∧
        (∀ j, j < ib → out[j]? = files[j]?) ∧
        (∀ j body, ib ≤ j → iBody[j]? = some body →
          out[j]? = some (liftDragLayout timestep body)) := by
  intro k
  induction k with
  | zero =>
    intro ib files hk hle hlen
    refine ⟨files, rfl, by omega, fun _ _ => rfl, ?_⟩
    intro j body hj hb
    have : j < iBody.length := (List.getElem?_eq_some_iff.mp hb).1
    omega
  | succ k ih =>
    intro ib files hk hle hlen
    have hib : ib < iBody.length := by omega
    rw [liftDragBodies, List.getElem?_eq_getElem hib]
    simp only [liftDragFile_eq]
    obtain ⟨out, hout, hl, hlow, hhigh⟩ := ih (ib + 1)
      (files ++ [liftDragLayout timestep iBody[ib]]) (by omega) (by omega) (by simp [hlen])
    refine ⟨out, hout, hl, ?_, ?_⟩
    · intro j hj
      rw [hlow j (by omega), List.getElem?_append_left (by omega)]
    · intro j body hj hb
      by_cases hjeq : j = ib
      · subst hjeq
        rw [List.getElem?_eq_getElem hib] at hb
        injection hb with hb
        subst hb
        rw [hlow j (by omega), List.getElem?_append_right (by omega)]
        simp [hlen]
      · exact hhigh j body (by omega) hb

/-- C13: `io_write_lift_drag` returns with the object manager as it was, and the file of body
`ib` is the header, one line with `force_xyz[0]` and `force_xyz[1]` per marker in marker order,
the label, and the two totals: the sum over the markers of `force_xyz[0]` and the sum over the
markers of `force_xyz[1]`, that is, the sums of the two columns above them. -/
theorem io_write_lift_drag_totals (timestep : Int) (om : ObjectManager) (ib : Nat) (body : IBBody)
    (hb : om.iBody[ib]? = some body) :
    ∃ files, io_write_lift_drag timestep om = some (om, files) ∧
      files.length = om.iBody.length ∧
      files[ib]? = some
        ([LdLine.header timestep]
          ++ body.markers.map (fun mk => LdLine.marker mk.force_xyz.1 mk.force_xyz.2.1)
          ++ [LdLine.totalsLabel,
              LdLine.totals (body.markers.map (fun mk => mk.force_xyz.1)).sum
                (body.markers.map (fun mk => mk.force_xyz.2.1)).sum]) := by
  obtain ⟨out, hout, hl, _, hhigh⟩ :=
    liftDragBodies_spec timestep om.iBody (om.iBody.length - 0) 0 [] rfl (Nat.zero_le _) rfl
  refine ⟨out, ?_, hl, ?_⟩
  · unfold io_write_lift_drag
    rw [hout]
  · rw [hhigh ib body (Nat.zero_le _) hb]
    rfl

/-- C13 at a body with marker forces `(1, 2, 0)` and `(3, 5, 0)`. -/
theorem io_write_lift_drag_totals_witness :
    (managerOf [forceBody]).iBody[0]? = some forceBody ∧
    ∃ files, io_write_lift_drag 4 (managerOf [forceBody]) = some (managerOf [forceBody], files) ∧
      files.length = 1 ∧
      files[0]? = some
        [LdLine.header 4, LdLine.marker 1 2, LdLine.marker 3 5, LdLine.totalsLabel,
         LdLine.totals 4 7] := by
  refine ⟨rfl, ?_⟩
  obtain ⟨files, h1, h2, h3⟩ := io_write_lift_drag_totals 4 (managerOf [forceBody]) 0 forceBody rfl
  refine ⟨files, h1, h2, ?_⟩
  rw [h3]
  norm_num [forceBody]

/-! ## Reported force components -/

/-- C17, evaluated at a failing input: with the identifier `dims` not defined as a macro (the
dimension macro of LUMA is `L_dims`) the preprocessor reads `#if (0 == 3)`, and the row reports
`Fz = 0` for an accumulator `force_on_object_z = 6` on a level-1 grid. `Fx` and `Fy` are the
accumulator divided by `2^1`. -/
theorem io_writeForceOnObject_drops_fz :
    (io_writeForceOnObject true 1 0 5
        ({ iBody := [], force_on_object_x := 2, force_on_object_y := 4, force_on_object_z := 6 },
          [])).2
      = [CsvLine.row 5 1 2 0] := by
  norm_num [io_writeForceOnObject, castInt]

/-! ## Point clouds as lists of points -/

theorem points_ofPoints (l : List (ℚ × ℚ × ℚ)) : points (ofPoints l) = l := by
  induction l with
  | nil => rfl
  | cons p l ih =>
    simp only [points, ofPoints, List.map_cons, List.zip_cons_cons] at ih ⊢
    rw [ih]

theorem ofPoints_points (pts : PCpts) (hy : pts.y.length = pts.x.length)
    (hz : pts.z.length = pts.x.length) : ofPoints (points pts) = pts := by
  obtain ⟨x, y, z⟩ := pts
  simp only at hy hz
  induction x generalizing y z with
  | nil =>
    have hy0 : y = [] := List.length_eq_zero.mp (by simpa using hy)
    have hz0 : z = [] := List.length_eq_zero.mp (by simpa using hz)
    subst hy0 hz0
    rfl
  | cons a x ih =>
    match y, z, hy, hz with
    | b :: y, c :: z, hy, hz =>
      have h := ih y z (by simpa using hy) (by simpa using hz)
      simp only [points, ofPoints, List.zip_cons_cons, List.map_cons, PCpts.mk.injEq,
        List.cons.injEq, true_and] at h ⊢
      exact h

theorem ofPoints_length (l : List (ℚ × ℚ × ℚ)) :
    (ofPoints l).x.length = l.length ∧ (ofPoints l).y.length = l.length
      ∧ (ofPoints l).z.length = l.length := by
  simp [ofPoints]

theorem get?_ofPoints (pre suf : List (ℚ × ℚ × ℚ)) (p : ℚ × ℚ × ℚ) :
    (ofPoints (pre ++ p :: suf)).get? pre.length = some p := by
  have h : ∀ (f : ℚ × ℚ × ℚ → ℚ), ((pre ++ p :: suf).map f)[pre.length]? = some (f p) := by
    intro f
    rw [List.getElem?_map, List.getElem?_append_right (le_refl _)]
    simp
  simp only [PCpts.get?, ofPoints, h]

theorem set_ofPoints (pre suf : List (ℚ × ℚ × ℚ)) (p q : ℚ × ℚ × ℚ) :
    (ofPoints (pre ++ p :: suf)).set pre.length q = ofPoints (pre ++ q :: suf) := by
  have h : ∀ (f : ℚ × ℚ × ℚ → ℚ),
      ((pre ++ p :: suf).map f).set pre.length (f q) = (pre ++ q :: suf).map f := by
    intro f
    rw [List.map_append, List.map_append, List.set_append_right _ _ (by simp)]
    simp
  simp only [PCpts.set, ofPoints, PCpts.mk.injEq]
  exact ⟨h (fun p => p.1), h (fun p => p.2.1), h (fun p => p.2.2)⟩

theorem erase_ofPoints (pre suf : List (ℚ × ℚ × ℚ)) (p : ℚ × ℚ × ℚ) :
    (ofPoints (pre ++ p :: suf)).erase pre.length = ofPoints (pre ++ suf) := by
  have h : ∀ (f : ℚ × ℚ × ℚ → ℚ),
      ((pre ++ p :: suf).map f).eraseIdx pre.length = (pre ++ suf).map f := by
    intro f
    rw [List.map_append, List.map_append, List.eraseIdx_append_of_length_le (by simp)]
    simp
  simp only [PCpts.erase, ofPoints, PCpts.mk.injEq]
  exact ⟨h (fun p => p.1), h (fun p => p.2.1), h (fun p => p.2.2)⟩

/-! ## The rank filter -/

theorem filterLoop_ofPoints (env : CloudEnv) :
    ∀ (suf pre : List (ℚ × ℚ × ℚ)) (p : ℚ × ℚ × ℚ) (fuel : Nat), suf.length + 1 ≤ fuel →
      filterLoop env fuel pre.length (ofPoints (pre ++ p :: suf))
        = CloudRun.returned (ofPoints (pre ++ (p :: suf).filter (onThisRank env)),
            (pre ++ (p :: suf).filter (onThisRank env)).length) := by
  intro suf
  induction suf with
  | nil =>
    intro pre p fuel hf
    obtain ⟨f, rfl⟩ : ∃ f, fuel = f + 1 := ⟨fuel - 1, by omega⟩
    rw [filterLoop, get?_ofPoints]
    simp only
    cases hp : onThisRank env p
    · have hlt : ¬ pre.length < (ofPoints (pre ++ [])).x.length := by
        simp [ofPoints]
      simp only [Bool.false_eq_true, if_false, erase_ofPoints, if_neg hlt]
      simp [List.filter_cons, hp]
    · have hlt : ¬ pre.length + 1 < (ofPoints (pre ++ [p])).x.length := by
        simp [ofPoints]
      simp only [if_true, if_neg hlt]
      simp [List.filter_cons, hp]
  | cons q s ih =>
    intro pre p fuel hf
    obtain ⟨f, rfl⟩ : ∃ f, fuel = f + 1 := ⟨fuel - 1, by omega⟩
    have hf1 : s.length + 1 ≤ f := by
      simp only [List.length_cons] at hf
      omega
    rw [filterLoop, get?_ofPoints]
    simp only
    cases hp : onThisRank env p
    · have hlt : pre.length < (ofPoints (pre ++ q :: s)).x.length := by
        simp [ofPoints]
      simp only [Bool.false_eq_true, if_false, erase_ofPoints, if_pos hlt]
      rw [ih pre q f hf1]
      simp [List.filter_cons, hp]
    · have hlt : pre.length + 1 < (ofPoints (pre ++ p :: q :: s)).x.length := by
        simp [ofPoints]
      simp only [if_true, if_pos hlt]
      have hre : pre ++ p :: q :: s = (pre ++ [p]) ++ q :: s := by simp
      have hlen : pre.length + 1 = (pre ++ [p]).length := by simp
      rw [hre, hlen, ih (pre ++ [p]) q f hf1]
      simp [List.filter_cons, hp]

theorem rankFilter_kept (env : CloudEnv) (pts : PCpts) (fuel : Nat) (hne : pts.x ≠ [])
    (hy : pts.y.length = pts.x.length) (hz : pts.z.length = pts.x.length)
    (hfuel : pts.x.length ≤ fuel) :
    ∃ (kept : PCpts) (a : Nat), rankFilter env fuel pts = CloudRun.returned (kept, a) ∧
      kept.y.length = kept.x.length ∧ kept.z.length = kept.x.length ∧
      points kept = (points pts).filter (onThisRank env) := by
  have hpts := ofPoints_points pts hy hz
  have hlen : (points pts).length = pts.x.length := by
    have h := (ofPoints_length (points pts)).1
    rw [hpts] at h
    exact h.symm
  match hl : points pts with
  | [] =>
    rw [hl] at hlen
    exact absurd (List.length_eq_zero.mp hlen.symm) hne
  | p :: suf =>
    rw [hl] at hlen
    have hrun := filterLoop_ofPoints env suf [] p fuel (by
      simp only [List.length_cons] at hlen
      omega)
    simp only [List.nil_append, List.length_nil] at hrun
    refine ⟨ofPoints ((p :: suf).filter (onThisRank env)),
      ((p :: suf).filter (onThisRank env)).length, ?_, ?_, ?_, ?_⟩
    · unfold rankFilter
      rw [← hpts, hl]
      exact hrun
    · rw [(ofPoints_length _).1, (ofPoints_length _).2.1]
    · rw [(ofPoints_length _).1, (ofPoints_length _).2.2]
    · rw [points_ofPoints]

/-- C15: on a non-empty cloud whose three vectors have the same length the rank filter returns
(any fuel from the number of points on is enough), the three vectors still have the same length,
and the points left are exactly the points whose voxel indices satisfy `isOnThisRank`, in their
original order; a point is kept or erased as a whole. -/
theorem rankFilter_spec (env : CloudEnv) (pts : PCpts) (fuel : Nat) (hne : pts.x ≠ [])
    (hy : pts.y.length = pts.x.length) (hz : pts.z.length = pts.x.length)
    (hfuel : pts.x.length ≤ fuel) :
    ∃ (kept : PCpts) (a : Nat), rankFilter env fuel pts = CloudRun.returned (kept, a) ∧
      kept.y.length = kept.x.length ∧ kept.z.length = kept.x.length ∧
      points kept = (points pts).filter (fun p =>
        env.isOnThisRank (env.getVoxInd p.1) (env.getVoxInd p.2.1) (env.getVoxInd p.2.2)) := by
  obtain ⟨kept, a, h1, h2, h3, h4⟩ := rankFilter_kept env pts fuel hne hy hz hfuel
  exact ⟨kept, a, h1, h2, h3, h4⟩

/-- C15 at a cloud of three points of which the middle one is off the rank. -/
theorem rankFilter_spec_witness :
    ∃ (kept : PCpts) (a : Nat),
      rankFilter cloudEnv 3 { x := [1, 20, 3], y := [1, 1, 1], z := [0, 0, 0] }
        = CloudRun.returned (kept, a) ∧
      kept.y.length = kept.x.length ∧ kept.z.length = kept.x.length ∧
      points kept = (points { x := [1, 20, 3], y := [1, 1, 1], z := [0, 0, 0] }).filter (fun p =>
        cloudEnv.isOnThisRank (cloudEnv.getVoxInd p.1) (cloudEnv.getVoxInd p.2.1)
          (cloudEnv.getVoxInd p.2.2)) :=
  rankFilter_spec cloudEnv { x := [1, 20, 3], y := [1, 1, 1], z := [0, 0, 0] } 3 (by decide)
    (by decide) (by decide) (by decide)

/-! ## Rescaling -/

theorem rescaleLoop_ofPoints (scale_factor shift_x shift_y shift_z : ℚ) :
    ∀ (suf pre : List (ℚ × ℚ × ℚ)),
      rescaleLoop scale_factor shift_x shift_y shift_z suf.length pre.length
          (ofPoints (pre ++ suf))
        = some (ofPoints (pre ++ suf.map (fun p =>
            (p.1 * scale_factor + shift_x, p.2.1 * scale_factor + shift_y,
              p.2.2 * scale_factor + shift_z)))) := by
  intro suf
  induction suf with
  | nil => intro pre; simp [rescaleLoop]
  | cons p s ih =>
    intro pre
    rw [List.length_cons, rescaleLoop, get?_ofPoints]
    simp only
    rw [set_ofPoints]
    have hre : ∀ q : ℚ × ℚ × ℚ, pre ++ q :: s = (pre ++ [q]) ++ s := by simp
    have hlen : ∀ q : ℚ × ℚ × ℚ, pre.length + 1 = (pre ++ [q]).length := by simp
    rw [hre, hlen (p.1 * scale_factor + shift_x, p.2.1 * scale_factor + shift_y,
      p.2.2 * scale_factor + shift_z), ih]
    simp

theorem maxElement_isSome (v : List ℚ) (h : v ≠ []) : ∃ m, maxElement v = some m := by
  cases v with
  | nil => exact absurd rfl h
  | cons a l => exact ⟨_, rfl⟩

theorem minElement_isSome (v : List ℚ) (h : v ≠ []) : ∃ m, minElement v = some m := by
  cases v with
  | nil => exact absurd rfl h
  | cons a l => exact ⟨_, rfl⟩

theorem rescale_spec (cfg : CloudCase) (pts : PCpts) (hne : pts.x ≠ [])
    (hy : pts.y.length = pts.x.length) (hz : pts.z.length = pts.x.length)
    (hext : extent pts.x ≠ 0) :
    ∃ scaled, rescale cfg pts = CloudRun.returned scaled ∧ scaled.x.length = pts.x.length ∧
      scaled.y.length = pts.x.length ∧ scaled.z.length = pts.x.length := by
  have hyne : pts.y ≠ [] := by
    intro h
    rw [h] at hy
    exact hne (List.length_eq_zero.mp hy.symm)
  have hzne : pts.z ≠ [] := by
    intro h
    rw [h] at hz
    exact hne (List.length_eq_zero.mp hz.symm)
  obtain ⟨xhi, hxhi⟩ := maxElement_isSome pts.x hne
  obtain ⟨xlo, hxlo⟩ := minElement_isSome pts.x hne
  obtain ⟨ylo, hylo⟩ := minElement_isSome pts.y hyne
  obtain ⟨zhi, hzhi⟩ := maxElement_isSome pts.z hzne
  obtain ⟨zlo, hzlo⟩ := minElement_isSome pts.z hzne
  have hd : ¬ |xhi - xlo| = 0 := by
    intro h
    apply hext
    unfold extent
    rw [hxhi, hxlo]
    exact abs_eq_zero.mp h
  have hpts := ofPoints_points pts hy hz
  have hlen : (points pts).length = pts.x.length := by
    have h := (ofPoints_length (points pts)).1
    rw [hpts] at h
    exact h.symm
  have hloop := fun sf sx sy sz => rescaleLoop_ofPoints sf sx sy sz (points pts) []
  simp only [List.nil_append, List.length_nil, hpts, hlen] at hloop
  unfold rescale scaleFactor scaleVector
  simp only [if_true, hxhi, hxlo, hylo, hzhi, hzlo, if_neg hd, Nat.sub_zero, hloop]
  refine ⟨_, rfl, ?_, ?_, ?_⟩
  · rw [(ofPoints_length _).1, List.length_map, hlen]
  · rw [(ofPoints_length _).2.1, List.length_map, hlen]
  · rw [(ofPoints_length _).2.2, List.length_map, hlen]

/-! ## Labelling of solid sites -/

theorem labelLoop_ofPoints (env : CloudEnv) :
    ∀ (suf pre : List (ℚ × ℚ × ℚ)) (LatTyp : Int → Int → Int → eType),
      labelLoop env (ofPoints (pre ++ suf)) suf.length pre.length LatTyp
        = some (suf.foldl (fun T p => labelSite T (siteOf env p)) LatTyp) := by
  intro suf
  induction suf with
  | nil => intro pre LatTyp; rfl
  | cons p s ih =>
    intro pre LatTyp
    rw [List.length_cons, labelLoop, get?_ofPoints]
    simp only
    have hre : pre ++ p :: s = (pre ++ [p]) ++ s := by simp
    have hlen : pre.length + 1 = (pre ++ [p]).length := by simp
    rw [hre, hlen, ih]
    rfl

theorem labelSite_apply (T : Int → Int → Int → eType) (loc : Int × Int × Int) (i j k : Int) :
    labelSite T loc i j k
      = if T i j k = eType.eFluid ∧ (i, j, k) = loc then eType.eSolid else T i j k := by
  unfold labelSite
  by_cases hf : T loc.1 loc.2.1 loc.2.2 = eType.eFluid
  · rw [if_pos hf]
    by_cases hl : (i, j, k) = loc
    · have : T i j k = eType.eFluid := by
        rw [← hl] at hf
        exact hf
      simp [hl, this]
    · simp [hl]
  · rw [if_neg hf]
    by_cases hl : (i, j, k) = loc
    · have : ¬ T i j k = eType.eFluid := by
        rw [← hl] at hf
        exact hf
      simp [this]
    · simp [hl]

theorem labelFold_spec (env : CloudEnv) (i j k : Int) :
    ∀ (l : List (ℚ × ℚ × ℚ)) (T : Int → Int → Int → eType),
      (T i j k ≠ eType.eFluid →
        (l.foldl (fun T p => labelSite T (siteOf env p)) T) i j k = T i j k)
      ∧ ((∀ p ∈ l, siteOf env p ≠ (i, j, k)) →
        (l.foldl (fun T p => labelSite T (siteOf env p)) T) i j k = T i j k)
      ∧ (T i j k = eType.eFluid → (∃ p ∈ l, siteOf env p = (i, j, k)) →
        (l.foldl (fun T p => labelSite T (siteOf env p)) T) i j k = eType.eSolid) := by
  intro l
  induction l with
  | nil =>
    intro T
    refine ⟨fun _ => rfl, fun _ => rfl, ?_⟩
    rintro _ ⟨p, hp, _⟩
    exact absurd hp (List.not_mem_nil p)
  | cons q l ih =>
    intro T
    obtain ⟨ih1, ih2, ih3⟩ := ih (labelSite T (siteOf env q))
    simp only [List.foldl_cons]
    refine ⟨?_, ?_, ?_⟩
    · intro hT
      have h1 : labelSite T (siteOf env q) i j k = T i j k := by
        rw [labelSite_apply]
        simp [hT]
      rw [ih1 (by rw [h1]; exact hT), h1]
    · intro hall
      have hq : ¬ (i, j, k) = siteOf env q := fun h => hall q (List.mem_cons_self _ _) h.symm
      have h1 : labelSite T (siteOf env q) i j k = T i j k := by
        rw [labelSite_apply]
        simp [hq]
      rw [ih2 (fun p hp => hall p (List.mem_cons_of_mem _ hp)), h1]
    · rintro hT ⟨p, hp, hsite⟩
      by_cases hq : (i, j, k) = siteOf env q
      · have h1 : labelSite T (siteOf env q) i j k = eType.eSolid := by
          rw [labelSite_apply]
          simp [hT, hq]
        rw [ih1 (by rw [h1]; decide), h1]
      · have h1 : labelSite T (siteOf env q) i j k = T i j k := by
          rw [labelSite_apply]
          simp [hq]
        rcases List.mem_cons.mp hp with h | h
        · subst h
          exact absurd hsite.symm hq
        · exact ih3 (by rw [h1]; exact hT) ⟨p, h, hsite⟩

theorem rescale_twoPoints (d : eCartesianDirection) :
    rescale (cloudCase d) twoPoints = CloudRun.returned twoPointsScaled := by
  norm_num [rescale, scaleFactor, scaleVector, maxElement, minElement, rescaleLoop, cloudCase,
    twoPoints, twoPointsScaled, PCpts.get?, PCpts.set]

/-- C14, evaluated at a failing input: the body is configured to be scaled along `y`
(`scale_direction = eYDirection`, `body_length = 10`), the cloud has extent 2 along `y`, and
after the rescaling step its extent along `y` is 20: the factor was taken from the extent along
`x`, which becomes 10. -/
theorem rescale_ignores_scale_direction :
    (cloudCase eCartesianDirection.eYDirection).scale_direction = eCartesianDirection.eYDirection
      ∧ (cloudCase eCartesianDirection.eYDirection).body_length = 10
      ∧ extent (twoPoints.along eCartesianDirection.eYDirection) = 2
      ∧ rescale (cloudCase eCartesianDirection.eYDirection) twoPoints
          = CloudRun.returned twoPointsScaled
      ∧ extent (twoPointsScaled.along eCartesianDirection.eYDirection) = 20
      ∧ extent (twoPointsScaled.along eCartesianDirection.eXDirection) = 10 := by
  refine ⟨rfl, rfl, ?_, rescale_twoPoints _, ?_, ?_⟩
  · norm_num [extent, twoPoints, PCpts.along, maxElement, minElement]
  · norm_num [extent, twoPointsScaled, PCpts.along, maxElement, minElement]
  · norm_num [extent, twoPointsScaled, PCpts.along, maxElement, minElement]

/-- C19: for a solid (bounce-back) cloud, on a process that holds the grid, with a non-empty
cloud of equal-length vectors and a non-zero extent along `x`, `io_readInCloud` returns; the
points left in the cloud are the rescaled points that are on this rank; every site that was fluid
and holds one of these points is solid afterwards, every site that was not fluid keeps its type,
and so does every site that holds none of these points. No body builder is called. -/
theorem io_readInCloud_labels_solid (env : CloudEnv) (cfg : CloudCase) (fileData : PCpts)
    (st : CloudState)
    (hne : st.pts.x ++ fileData.x ≠ [])
    (hy : (st.pts.y ++ fileData.y).length = (st.pts.x ++ fileData.x).length)
    (hz : (st.pts.z ++ fileData.z).length = (st.pts.x ++ fileData.x).length)
    (hext : extent (st.pts.x ++ fileData.x) ≠ 0) :
    ∃ (after : CloudState) (scaled : PCpts),
      io_readInCloud env cfg eObjectType.eBBBCloud true true fileData st
          = CloudRun.returned after
      ∧ rescale cfg
          { x := st.pts.x ++ fileData.x, y := st.pts.y ++ fileData.y,
            z := st.pts.z ++ fileData.z } = CloudRun.returned scaled
      ∧ points after.pts = (points scaled).filter (onThisRank env)
      ∧ after.calls = st.calls
      ∧ (∀ i j k : Int, st.LatTyp i j k = eType.eFluid →
          (∃ p ∈ points after.pts, siteOf env p = (i, j, k)) →
          after.LatTyp i j k = eType.eSolid)
      ∧ (∀ i j k : Int, st.LatTyp i j k ≠ eType.eFluid → after.LatTyp i j k = st.LatTyp i j k)
      ∧ (∀ i j k : Int, (∀ p ∈ points after.pts, siteOf env p ≠ (i, j, k)) →
          after.LatTyp i j k = st.LatTyp i j k) := by
  have hyne : st.pts.y ++ fileData.y ≠ [] := by
    intro h
    rw [h] at hy
    exact hne (List.length_eq_zero.mp hy.symm)
  have hzne : st.pts.z ++ fileData.z ≠ [] := by
    intro h
    rw [h] at hz
    exact hne (List.length_eq_zero.mp hz.symm)
  obtain ⟨scaled, hscaled, hsx, hsy, hsz⟩ := rescale_spec cfg
    { x := st.pts.x ++ fileData.x, y := st.pts.y ++ fileData.y, z := st.pts.z ++ fileData.z }
    hne hy hz hext
  simp only at hsx hsy hsz
  have hsne : scaled.x ≠ [] := by
    intro h
    rw [h] at hsx
    exact hne (List.length_eq_zero.mp hsx.symm)
  obtain ⟨kept, a, hkept, hky, hkz, hkp⟩ := rankFilter_kept env scaled scaled.x.length hsne
    (by rw [hsy, hsx]) (by rw [hsz, hsx]) (le_refl _)
  have hrun : io_readInCloud env cfg eObjectType.eBBBCloud true true fileData st
      = cloudAction env eObjectType.eBBBCloud a { st with pts := kept } := by
    unfold io_readInCloud
    simp only [not_true_eq_false, if_false, hne, hyne, hzne, or_self, hscaled, hkept]
  have hkpts := ofPoints_points kept hky hkz
  have hklen : (points kept).length = kept.x.length := by
    have h := (ofPoints_length (points kept)).1
    rw [hkpts] at h
    exact h.symm
  by_cases hk : kept.x = []
  · have hnil : points kept = [] := by
      apply List.length_eq_zero.mp
      rw [hklen, hk]
      rfl
    refine ⟨{ st with pts := kept }, scaled, ?_, hscaled, hkp, rfl, ?_, fun _ _ _ _ => rfl,
      fun _ _ _ _ => rfl⟩
    · rw [hrun]
      unfold cloudAction
      simp only [hk, ne_eq, not_true_eq_false, if_false]
    · rintro i j k _ ⟨p, hp, _⟩
      simp only [hnil] at hp
      exact absurd hp (List.not_mem_nil p)
  · have hloop := labelLoop_ofPoints env (points kept) [] st.LatTyp
    simp only [List.nil_append, List.length_nil, hkpts, hklen] at hloop
    refine ⟨⟨kept, (points kept).foldl (fun T p => labelSite T (siteOf env p)) st.LatTyp,
      st.calls⟩, scaled, ?_, hscaled, hkp, rfl, ?_, ?_, ?_⟩
    · rw [hrun]
      unfold cloudAction
      simp only [ne_eq, hk, not_false_eq_true, if_true, Nat.sub_zero, hloop]
    · intro i j k hT hp
      exact (labelFold_spec env i j k (points kept) st.LatTyp).2.2 hT hp
    · intro i j k hT
      exact (labelFold_spec env i j k (points kept) st.LatTyp).1 hT
    · intro i j k hall
      exact (labelFold_spec env i j k (points kept) st.LatTyp).2.1 hall

/-- C19 at the cloud `twoPoints` ingested into an all-fluid grid. -/
theorem io_readInCloud_labels_solid_witness :
    ∃ (after : CloudState) (scaled : PCpts),
      io_readInCloud cloudEnv (cloudCase eCartesianDirection.eXDirection)
          eObjectType.eBBBCloud true true twoPoints
          { pts := emptyCloud, LatTyp := (fun _ _ _ => eType.eFluid), calls := [] }
          = CloudRun.returned after
      ∧ rescale (cloudCase eCartesianDirection.eXDirection)
          { x := emptyCloud.x ++ twoPoints.x, y := emptyCloud.y ++ twoPoints.y,
            z := emptyCloud.z ++ twoPoints.z } = CloudRun.returned scaled
      ∧ points after.pts = (points scaled).filter (onThisRank cloudEnv)
      ∧ after.calls = []
      ∧ (∀ i j k : Int, (fun _ _ _ => eType.eFluid : Int → Int → Int → eType) i j k
            = eType.eFluid →
          (∃ p ∈ points after.pts, siteOf cloudEnv p = (i, j, k)) →
          after.LatTyp i j k = eType.eSolid)
      ∧ (∀ i j k : Int, (fun _ _ _ => eType.eFluid : Int → Int → Int → eType) i j k
            ≠ eType.eFluid →
          after.LatTyp i j k = (fun _ _ _ => eType.eFluid : Int → Int → Int → eType) i j k)
      ∧ (∀ i j k : Int, (∀ p ∈ points after.pts, siteOf cloudEnv p ≠ (i, j, k)) →
          after.LatTyp i j k = (fun _ _ _ => eType.eFluid : Int → Int → Int → eType) i j k) :=
  io_readInCloud_labels_solid cloudEnv (cloudCase eCartesianDirection.eXDirection) twoPoints
    { pts := emptyCloud, LatTyp := (fun _ _ _ => eType.eFluid), calls := [] }
    (by decide) (by decide) (by decide)
    (by norm_num [extent, emptyCloud, twoPoints, maxElement, minElement])

/-! ## BFL initialisation -/

/-- C16, evaluated at a failing input: BFL objects enabled, the cloud `twoPoints` read from the
file, both rescaled points on this rank. Whatever the builder `build` does, it is called once
inside `io_readInCloud` and once more by `main` unless it has emptied the vector `x` it was
handed; with a builder that leaves the cloud as it is, it is called twice on the ingested
cloud. -/
theorem main_bfl_builds_twice :
    (∀ (build : PCpts → PCpts) (LatTyp : Int → Int → Int → eType),
      ∃ after,
        main_bfl { cloudEnv with bfl_build_body := build }
            (cloudCase eCartesianDirection.eXDirection) true true twoPoints LatTyp
          = CloudRun.returned after
        ∧ after.calls
          = BuildCall.bfl twoPointsScaled ::
              (if (build twoPointsScaled).x = [] then []
               else [BuildCall.bfl (build twoPointsScaled)]))
      ∧ ∀ LatTyp : Int → Int → Int → eType,
          main_bfl cloudEnv (cloudCase eCartesianDirection.eXDirection) true true twoPoints LatTyp
            = CloudRun.returned
                { pts := twoPointsScaled, LatTyp := LatTyp,
                  calls := [BuildCall.bfl twoPointsScaled, BuildCall.bfl twoPointsScaled] } := by
  have hr : rescale (cloudCase eCartesianDirection.eXDirection)
      { x := twoPoints.x, y := twoPoints.y, z := twoPoints.z }
      = CloudRun.returned twoPointsScaled := rescale_twoPoints _
  have hne : ¬ (twoPoints.x = [] ∨ twoPoints.y = [] ∨ twoPoints.z = []) := by
    decide
  have hlen : twoPointsScaled.x.length = 2 := rfl
  have hsne : twoPointsScaled.x ≠ [] := by decide
  constructor
  · intro build LatTyp
    have hf : rankFilter { cloudEnv with bfl_build_body := build } 2 twoPointsScaled
        = CloudRun.returned (twoPointsScaled, 2) := rfl
    by_cases hb : (build twoPointsScaled).x = []
    · refine ⟨⟨build twoPointsScaled, LatTyp, [BuildCall.bfl twoPointsScaled]⟩, ?_, ?_⟩
      · simp only [main_bfl, io_readInCloud, not_true_eq_false, if_false, if_neg hne, hr, hlen,
          hf, cloudAction, if_pos hsne, List.nil_append, ne_eq, hb, not_true_eq_false]
      · simp only [hb, if_true]
    · refine ⟨⟨build (build twoPointsScaled), LatTyp,
        [BuildCall.bfl twoPointsScaled, BuildCall.bfl (build twoPointsScaled)]⟩, ?_, ?_⟩
      · simp only [main_bfl, io_readInCloud, not_true_eq_false, if_false, if_neg hne, hr, hlen,
          hf, cloudAction, if_pos hsne, List.nil_append, ne_eq, hb, not_false_eq_true, if_true,
          List.singleton_append]
      · simp only [hb, if_false]
  · intro LatTyp
    have hf : rankFilter cloudEnv 2 twoPointsScaled = CloudRun.returned (twoPointsScaled, 2) := by
      decide
    have hid : cloudEnv.bfl_build_body twoPointsScaled = twoPointsScaled := rfl
    simp only [main_bfl, io_readInCloud, not_true_eq_false, if_false, if_neg hne, hr, hlen, hf,
      cloudAction, if_pos hsne, hid, List.nil_append, List.singleton_append]

/-! ## Index safety of `io_readInCloud` -/

theorem rankFilter_counter (env : CloudEnv) (pts : PCpts) (hne : pts.x ≠ [])
    (hy : pts.y.length = pts.x.length) (hz : pts.z.length = pts.x.length) :
    ∃ kept : PCpts, rankFilter env pts.x.length pts = CloudRun.returned (kept, kept.x.length) ∧
      kept.y.length = kept.x.length ∧ kept.z.length = kept.x.length ∧
      points kept = (points pts).filter (onThisRank env) := by
  have hpts := ofPoints_points pts hy hz
  have hlen : (points pts).length = pts.x.length := by
    have h := (ofPoints_length (points pts)).1
    rw [hpts] at h
    exact h.symm
  match hl : points pts with
  | [] =>
    rw [hl] at hlen
    exact absurd (List.length_eq_zero.mp hlen.symm) hne
  | p :: suf =>
    rw [hl] at hlen
    have hrun := filterLoop_ofPoints env suf [] p pts.x.length (by
      simp only [List.length_cons] at hlen
      omega)
    simp only [List.nil_append, List.length_nil] at hrun
    refine ⟨ofPoints ((p :: suf).filter (onThisRank env)), ?_, ?_, ?_, ?_⟩
    · unfold rankFilter
      rw [(ofPoints_length _).1]
      have h2 : ofPoints (p :: suf) = pts := by
        rw [← hl]
        exact hpts
      rw [h2] at hrun
      exact hrun
    · rw [(ofPoints_length _).1, (ofPoints_length _).2.1]
    · rw [(ofPoints_length _).1, (ofPoints_length _).2.2]
    · rw [points_ofPoints]

theorem io_readInCloud_ibb_run (env : CloudEnv) (cfg : CloudCase) (fileData : PCpts)
    (st : CloudState)
    (hne : st.pts.x ++ fileData.x ≠ [])
    (hy : (st.pts.y ++ fileData.y).length = (st.pts.x ++ fileData.x).length)
    (hz : (st.pts.z ++ fileData.z).length = (st.pts.x ++ fileData.x).length)
    (hext : extent (st.pts.x ++ fileData.x) ≠ 0) :
    ∃ scaled kept : PCpts,
      rescale cfg
          { x := st.pts.x ++ fileData.x, y := st.pts.y ++ fileData.y,
            z := st.pts.z ++ fileData.z } = CloudRun.returned scaled
      ∧ rankFilter env scaled.x.length scaled = CloudRun.returned (kept, kept.x.length)
      ∧ kept.y[kept.x.length]? = none
      ∧ points kept = (points scaled).filter (onThisRank env)
      ∧ io_readInCloud env cfg eObjectType.eIBBCloud true true fileData st
          = if kept.x = [] then CloudRun.returned { st with pts := kept }
            else CloudRun.outOfRange := by
  have hyne : st.pts.y ++ fileData.y ≠ [] := by
    intro h
    rw [h] at hy
    exact hne (List.length_eq_zero.mp hy.symm)
  have hzne : st.pts.z ++ fileData.z ≠ [] := by
    intro h
    rw [h] at hz
    exact hne (List.length_eq_zero.mp hz.symm)
  obtain ⟨scaled, hscaled, hsx, hsy, hsz⟩ := rescale_spec cfg
    { x := st.pts.x ++ fileData.x, y := st.pts.y ++ fileData.y, z := st.pts.z ++ fileData.z }
    hne hy hz hext
  simp only at hsx hsy hsz
  have hsne : scaled.x ≠ [] := by
    intro h
    rw [h] at hsx
    exact hne (List.length_eq_zero.mp hsx.symm)
  obtain ⟨kept, hkept, hky, hkz, hkp⟩ := rankFilter_counter env scaled hsne
    (by rw [hsy, hsx]) (by rw [hsz, hsx])
  have hnone : kept.y[kept.x.length]? = none := List.getElem?_eq_none (le_of_eq hky)
  refine ⟨scaled, kept, hscaled, hkept, hnone, hkp, ?_⟩
  unfold io_readInCloud
  simp only [not_true_eq_false, if_false, hne, hyne, hzne, or_self, hscaled, hkept]
  unfold cloudAction
  by_cases hk : kept.x = []
  · simp only [hk, ne_eq, not_true_eq_false, if_false, if_true]
  · simp only [ne_eq, hk, not_false_eq_true, if_true, hnone, if_false]

/-- C21, evaluated at a failing input: an immersed-boundary cloud (`eIBBCloud`) of the two points
`twoPoints`, both on this rank after rescaling. The rank filter leaves the counter `a = 2`, which
is the length of `y`, so the read `y[a]` of line 504 has no element to read and the run leaves
the bounds of the vector. With the same cloud the solid and the BFL case return. -/
theorem io_readInCloud_ibb_reads_past_end :
    rankFilter cloudEnv 2 twoPointsScaled = CloudRun.returned (twoPointsScaled, 2)
      ∧ twoPointsScaled.y.length = 2
      ∧ twoPointsScaled.y[2]? = none
      ∧ (∀ LatTyp : Int → Int → Int → eType,
          io_readInCloud cloudEnv (cloudCase eCartesianDirection.eXDirection)
              eObjectType.eIBBCloud true true twoPoints
              { pts := emptyCloud, LatTyp := LatTyp, calls := [] }
            = CloudRun.outOfRange)
      ∧ (∀ LatTyp : Int → Int → Int → eType,
          io_readInCloud cloudEnv (cloudCase eCartesianDirection.eXDirection)
              eObjectType.eBFLCloud true true twoPoints
              { pts := emptyCloud, LatTyp := LatTyp, calls := [] }
            = CloudRun.returned
                { pts := twoPointsScaled, LatTyp := LatTyp,
                  calls := [BuildCall.bfl twoPointsScaled] })
      ∧ (∀ LatTyp : Int → Int → Int → eType, ∃ after,
          io_readInCloud cloudEnv (cloudCase eCartesianDirection.eXDirection)
              eObjectType.eBBBCloud true true twoPoints
              { pts := emptyCloud, LatTyp := LatTyp, calls := [] }
            = CloudRun.returned after ∧ after.pts = twoPointsScaled) := by
  have hf : rankFilter cloudEnv 2 twoPointsScaled = CloudRun.returned (twoPointsScaled, 2) := by
    decide
  have hr : rescale (cloudCase eCartesianDirection.eXDirection)
      { x := twoPoints.x, y := twoPoints.y, z := twoPoints.z }
      = CloudRun.returned twoPointsScaled := rescale_twoPoints _
  have hne : ¬ (twoPoints.x = [] ∨ twoPoints.y = [] ∨ twoPoints.z = []) := by
    decide
  have hlen : twoPointsScaled.x.length = 2 := rfl
  have hsne : twoPointsScaled.x ≠ [] := by decide
  have hy2 : twoPointsScaled.y[2]? = none := rfl
  have hid : cloudEnv.bfl_build_body twoPointsScaled = twoPointsScaled := rfl
  refine ⟨hf, rfl, hy2, ?_, ?_, ?_⟩
  · intro LatTyp
    simp only [io_readInCloud, not_true_eq_false, if_false, emptyCloud, List.nil_append,
      if_neg hne, hr, hlen, hf, cloudAction, if_pos hsne, hy2]
  · intro LatTyp
    simp only [io_readInCloud, not_true_eq_false, if_false, emptyCloud, List.nil_append,
      if_neg hne, hr, hlen, hf, cloudAction, if_pos hsne, hid]
  · intro LatTyp
    have hl : ∃ T, labelLoop cloudEnv twoPointsScaled (twoPointsScaled.x.length - 0) 0 LatTyp
        = some T := ⟨_, rfl⟩
    obtain ⟨T, hT⟩ := hl
    refine ⟨⟨twoPointsScaled, T, []⟩, ?_, rfl⟩
    simp only [io_readInCloud, not_true_eq_false, if_false, emptyCloud, List.nil_append,
      if_neg hne, hr, hlen, hf, cloudAction, if_pos hsne]
    rw [hlen] at hT
    simp only [hT]

end LUMA

namespace LatBo

/-! ## `matrix_multiply` -/

/-- C8, evaluated at two failing inputs: for a 1 x 2 matrix the result has two entries instead of
one, and for a 2 x 1 matrix `product[1]` is accessed although `product` has one entry. -/
theorem matrix_multiply_sizes_by_x :
    matrix_multiply [[1, 2]] [1, 1] = Result.value [3, 0]
      ∧ matrix_multiply [[1], [2]] [1] = Result.outOfRange := by
  constructor
  · norm_num [matrix_multiply, multiplyRows, multiplyCols, List.replicate, List.set]
  · norm_num [matrix_multiply, multiplyRows, multiplyCols, List.replicate, List.set]

/-- C9 fails as stated: the second row has length 3, the vector has length 2, and a product is
returned. -/
theorem matrix_multiply_ragged_not_detected :
    ([3, 4, 5] : List ℚ).length ≠ ([1, 1] : List ℚ).length
      ∧ matrix_multiply [[1, 2], [3, 4, 5]] [1, 1] = Result.value [3, 7] := by
  constructor
  · decide
  · norm_num [matrix_multiply, multiplyRows, multiplyCols, List.replicate, List.set]

/-- C9, amended: when the first row of `A` has a length different from that of `x`,
`matrix_multiply` prints the mismatch message and exits with failure. -/
theorem matrix_multiply_first_row_mismatch (a0 : List ℚ) (rest : List (List ℚ)) (x : List ℚ)
    (h : a0.length ≠ x.length) :
    matrix_multiply (a0 :: rest) x
      = Result.exitFailure "Dimension mismatch -- cannot proceed. Exiting." := by
  simp [matrix_multiply, h]

/-- C9 (amended) at a matrix whose first row has three entries and a vector of two. -/
theorem matrix_multiply_first_row_mismatch_witness :
    ([1, 2, 3] : List ℚ).length ≠ ([1, 1] : List ℚ).length
      ∧ matrix_multiply [[1, 2, 3], [4, 5]] [1, 1]
          = Result.exitFailure "Dimension mismatch -- cannot proceed. Exiting." :=
  ⟨by decide, matrix_multiply_first_row_mismatch [1, 2, 3] [[4, 5]] [1, 1] (by decide)⟩

/-! ## `linspace` -/

theorem vecInsert_end (result : List ℚ) (count : Nat) (v : ℚ) (hc : count = result.length) :
    vecInsert result count v = some (result ++ [v]) := by
  simp [vecInsert, hc]

theorem linspaceLoop_eq (min max : ℚ) (n : Int) :
    ∀ (k : Nat) (i : Int) (count : Nat) (result : List ℚ), count = result.length →
      linspaceLoop min max n k i count result
        = some (result ++ (List.range k).map (fun j : Nat =>
            min + ((i + j : Int) : ℚ) * (max - min) / (((⌊(n : ℚ)⌋ : Int) : ℚ) - 1)),
          count + k) := by
  intro k
  induction k with
  | zero => intro i count result _; simp [linspaceLoop]
  | succ k ih =>
    intro i count result hc
    have hins : vecInsert result count
        (min + (i : ℚ) * (max - min) / (((⌊(n : ℚ)⌋ : Int) : ℚ) - 1))
        = some (result ++ [min + (i : ℚ) * (max - min) / (((⌊(n : ℚ)⌋ : Int) : ℚ) - 1)]) := by
      simp [vecInsert, hc]
    rw [linspaceLoop]
    simp only [hins]
    rw [ih (i + 1) (count + 1) _ (by simp [hc]), List.range_succ_eq_map, List.map_cons,
      List.map_map, List.append_assoc]
    simp only [List.singleton_append, Nat.cast_zero, add_zero, Prod.mk.injEq, Option.some.injEq]
    refine ⟨?_, by omega⟩
    congr 2
    apply List.map_congr_left
    intro j _
    simp only [Function.comp, Nat.cast_succ]
    congr 3
    push_cast
    ring

theorem linspace_eq (min max : ℚ) (n : Int) (hn : 2 ≤ n) :
    linspace min max n
      = Result.value ((List.range (n.toNat - 1)).map (fun j : Nat =>
          min + (j : ℚ) * (max - min) / ((n : ℚ) - 1)) ++ [max]) := by
  have hk : (n - 2 + 1).toNat = n.toNat - 1 := by omega
  unfold linspace
  rw [linspaceLoop_eq min max n _ 0 0 [] rfl, hk]
  simp only [List.nil_append, Nat.zero_add]
  rw [vecInsert_end _ _ _ (by simp)]
  simp

/-- C10: for `n ≥ 2`, `linspace min max n` returns `n` values; value `i` is
`min + i * (max - min) / (n - 1)` for `i < n - 1`, the last value is `max`, the first is `min`,
and consecutive values differ by `(max - min) / (n - 1)`. -/
theorem linspace_uniform (min max : ℚ) (n : Int) (hn : 2 ≤ n) :
    ∃ l, linspace min max n = Result.value l ∧ l.length = n.toNat ∧
      (∀ i : Nat, (i : Int) < n - 1 →
        l[i]? = some (min + (i : ℚ) * (max - min) / ((n : ℚ) - 1))) ∧
      l[n.toNat - 1]? = some max ∧
      l[0]? = some min ∧
      (∀ i : Nat, (i : Int) + 1 < n →
        ∃ a b, l[i]? = some a ∧ l[i + 1]? = some b ∧ b - a = (max - min) / ((n : ℚ) - 1)) := by
  have hlen : ((List.range (n.toNat - 1)).map (fun j : Nat =>
      min + (j : ℚ) * (max - min) / ((n : ℚ) - 1))).length = n.toNat - 1 := by simp
  have hget : ∀ i : Nat, i < n.toNat - 1 →
      ((List.range (n.toNat - 1)).map (fun j : Nat =>
        min + (j : ℚ) * (max - min) / ((n : ℚ) - 1)) ++ [max])[i]?
        = some (min + (i : ℚ) * (max - min) / ((n : ℚ) - 1)) := by
    intro i hi
    rw [List.getElem?_append_left (by rw [hlen]; exact hi), List.getElem?_map,
      List.getElem?_range hi]
    rfl
  have hlast : ((List.range (n.toNat - 1)).map (fun j : Nat =>
        min + (j : ℚ) * (max - min) / ((n : ℚ) - 1)) ++ [max])[n.toNat - 1]? = some max := by
    rw [List.getElem?_append_right (by rw [hlen])]
    simp
  have hcast : ((n.toNat : Int) : ℚ) = (n : ℚ) := by
    rw [Int.toNat_of_nonneg (by omega)]
  have hne : (n : ℚ) - 1 ≠ 0 := by
    have h2 : (2 : ℚ) ≤ (n : ℚ) := by exact_mod_cast hn
    intro h0
    linarith
  refine ⟨_, linspace_eq min max n hn, ?_, ?_, hlast, ?_, ?_⟩
  · rw [List.length_append, hlen]
    simp
    omega
  · intro i hi
    exact hget i (by omega)
  · rw [hget 0 (by omega)]
    simp
  · intro i hi
    by_cases hlt : i + 1 < n.toNat - 1
    · refine ⟨_, _, hget i (by omega), hget (i + 1) hlt, ?_⟩
      push_cast
      field_simp
      ring
    · have hi1 : i + 1 = n.toNat - 1 := by omega
      refine ⟨_, _, hget i (by omega), by rw [hi1]; exact hlast, ?_⟩
      have hiq : (i : ℚ) = (n : ℚ) - 2 := by
        have : ((i : Int) : ℚ) = ((n - 2 : Int) : ℚ) := by
          congr 1
          omega
        push_cast at this
        exact this
      rw [hiq]
      field_simp
      ring

/-- C10 at `linspace(0, 1, 5)`. -/
theorem linspace_uniform_five :
    (2 : Int) ≤ 5 ∧
    ∃ l, linspace 0 1 5 = Result.value l ∧ l.length = (5 : Int).toNat ∧
      (∀ i : Nat, (i : Int) < 5 - 1 →
        l[i]? = some ((0 : ℚ) + (i : ℚ) * (1 - 0) / (((5 : Int) : ℚ) - 1))) ∧
      l[(5 : Int).toNat - 1]? = some 1 ∧
      l[0]? = some 0 ∧
      (∀ i : Nat, (i : Int) + 1 < 5 →
        ∃ a b, l[i]? = some a ∧ l[i + 1]? = some b ∧ b - a = (1 - 0) / (((5 : Int) : ℚ) - 1)) :=
  ⟨by decide, linspace_uniform 0 1 5 (by decide)⟩

/-! ## `onespace` -/

theorem intInsert_end (v : List Int) (pos : Nat) (a : Int) (h : pos = v.length) :
    intInsert v pos a = some (v ++ [a]) := by
  simp [intInsert, h]

theorem asInt_of_fits (n : Int) (h : fitsInt n) : asInt n = some n := by
  simp [asInt, h]

theorem onespaceLoop_eq (min max : Int) (hmin : fitsInt min) (hmax : fitsInt max)
    (hd : fitsInt (max - min)) (hd1 : fitsInt (max - min + 1)) :
    ∀ (k : Nat) (i : Int) (result : List Int), 0 ≤ i → i ≤ max - min + 1 ∨ max < min →
      i.toNat = result.length → k = (max - min + 1 - i).toNat + 1 →
      onespaceLoop min max k i result
        = Checked.done (result ++ (List.range (max - min + 1 - i).toNat).map
            (fun j : Nat => min + i + j)) := by
  intro k
  induction k with
  | zero => intro i result _ _ _ hk; omega
  | succ k ih =>
    intro i result hi hle hlen hk
    rw [onespaceLoop, asInt_of_fits _ hd]
    simp only
    by_cases hc : i ≤ max - min
    · have hfit : fitsInt (min + i) := by
        unfold fitsInt at *
        omega
      have hfit1 : fitsInt (i + 1) := by
        unfold fitsInt at *
        omega
      rw [if_pos hc, asInt_of_fits _ hfit]
      simp only
      rw [intInsert_end _ _ _ hlen]
      simp only
      rw [asInt_of_fits _ hfit1]
      simp only
      rw [ih (i + 1) _ (by omega) (Or.inl (by omega)) (by simp; omega) (by omega)]
      have hn : (max - min + 1 - i).toNat = (max - min + 1 - (i + 1)).toNat + 1 := by omega
      rw [hn, List.range_succ_eq_map, List.map_cons, List.map_map, List.append_assoc]
      simp only [List.singleton_append, Nat.cast_zero, add_zero]
      congr 3
      apply List.map_congr_left
      intro j _
      simp only [Function.comp, Nat.cast_succ]
      ring
    · rw [if_neg hc]
      have hn : (max - min + 1 - i).toNat = 0 := by omega
      rw [hn]
      simp

/-- C11: when no `int` operation overflows, `onespace(min, max)` returns for `min ≤ max` the
list `min, min + 1, ..., max` (entry `i` is `min + i`, there are `max - min + 1` entries), and for
`max < min` the empty list. -/
theorem onespace_spec (min max : Int) (hmin : fitsInt min) (hmax : fitsInt max)
    (hd : fitsInt (max - min)) (hd1 : fitsInt (max - min + 1)) :
    ∃ l, onespace min max = Checked.done l ∧
      (min ≤ max → (l.length : Int) = max - min + 1) ∧
      (∀ i : Nat, i < l.length → l[i]? = some (min + (i : Int))) ∧
      (∀ i : Nat, i + 1 < l.length →
        ∃ a b, l[i]? = some a ∧ l[i + 1]? = some b ∧ b = a + 1) ∧
      (min ≤ max → l[0]? = some min ∧ l[l.length - 1]? = some max) ∧
      (max < min → l = []) := by
  have hrun := onespaceLoop_eq min max hmin hmax hd hd1 ((max - min + 1).toNat + 1) 0 []
    (le_refl 0) (by omega) rfl (by simp)
  simp only [sub_zero, List.nil_append, add_zero] at hrun
  have hget : ∀ i : Nat, i < (max - min + 1).toNat →
      ((List.range (max - min + 1).toNat).map (fun j : Nat => min + (j : Int)))[i]?
        = some (min + (i : Int)) := by
    intro i hi
    rw [List.getElem?_map, List.getElem?_range hi]
    rfl
  refine ⟨_, hrun, ?_, ?_, ?_, ?_, ?_⟩
  · intro h
    simp only [List.length_map, List.length_range]
    omega
  · intro i hi
    simp only [List.length_map, List.length_range] at hi
    exact hget i hi
  · intro i hi
    simp only [List.length_map, List.length_range] at hi
    refine ⟨_, _, hget i (by omega), hget (i + 1) hi, ?_⟩
    push_cast
    ring
  · intro h
    simp only [List.length_map, List.length_range]
    refine ⟨?_, ?_⟩
    · rw [hget 0 (by omega)]
      simp
    · rw [hget _ (by omega)]
      congr 1
      omega
  · intro h
    have hn : (max - min + 1).toNat = 0 := by omega
    rw [hn]
    rfl

/-- C11 at `onespace(3, 6)`. -/
theorem onespace_spec_witness :
    ∃ l, onespace 3 6 = Checked.done l ∧ (l.length : Int) = 6 - 3 + 1 ∧
      l[0]? = some 3 ∧ l[l.length - 1]? = some 6 := by
  obtain ⟨l, h, hlen, _, _, hends, _⟩ :=
    onespace_spec 3 6 (by decide) (by decide) (by decide) (by decide)
  exact ⟨l, h, hlen (by decide), hends (by decide)⟩

/-! ## `indmapref` -/

theorem fineIndex_eq (coarse start : Int) (h0 : fitsInt (coarse - start))
    (h1 : fitsInt (coarse - start + 1)) (h2 : fitsInt (2 * (coarse - start + 1)))
    (h3 : fitsInt (2 * (coarse - start + 1) - 2)) :
    fineIndex coarse start = some (2 * (coarse - start)) := by
  unfold fineIndex
  rw [asInt_of_fits _ h0]
  simp only
  rw [asInt_of_fits _ h1]
  simp only
  rw [asInt_of_fits _ h2]
  simp only
  rw [asInt_of_fits _ h3]
  congr 1
  ring

theorem indmapref_eq (fi fj fk : Int) (ci xs cj ys ck zs : Int)
    (hi : fineIndex ci xs = some fi) (hj : fineIndex cj ys = some fj)
    (hk : fineIndex ck zs = some fk) :
    indmapref ci xs cj ys ck zs = Checked.done [fi, fj, fk] := by
  unfold indmapref
  rw [hi, hj, hk]
  rfl

/-- C12: when no `int` operation overflows, `indmapref` returns the three indices
`2*(coarse_i - x_start)`, `2*(coarse_j - y_start)`, `2*(coarse_k - z_start)` in this order; each
of them is even, and the first coarse site of the region is mapped to `0, 0, 0`. -/
theorem indmapref_spec (coarse_i x_start coarse_j y_start coarse_k z_start : Int)
    (hx0 : fitsInt (coarse_i - x_start)) (hx1 : fitsInt (coarse_i - x_start + 1))
    (hx2 : fitsInt (2 * (coarse_i - x_start + 1)))
    (hx3 : fitsInt (2 * (coarse_i - x_start + 1) - 2))
    (hy0 : fitsInt (coarse_j - y_start)) (hy1 : fitsInt (coarse_j - y_start + 1))
    (hy2 : fitsInt (2 * (coarse_j - y_start + 1)))
    (hy3 : fitsInt (2 * (coarse_j - y_start + 1) - 2))
    (hz0 : fitsInt (coarse_k - z_start)) (hz1 : fitsInt (coarse_k - z_start + 1))
    (hz2 : fitsInt (2 * (coarse_k - z_start + 1)))
    (hz3 : fitsInt (2 * (coarse_k - z_start + 1) - 2)) :
    indmapref coarse_i x_start coarse_j y_start coarse_k z_start
        = Checked.done
            [2 * (coarse_i - x_start), 2 * (coarse_j - y_start), 2 * (coarse_k - z_start)]
      ∧ (∀ f ∈ [2 * (coarse_i - x_start), 2 * (coarse_j - y_start), 2 * (coarse_k - z_start)],
          f % 2 = 0)
      ∧ indmapref x_start x_start y_start y_start z_start z_start = Checked.done [0, 0, 0] := by
  refine ⟨?_, ?_, ?_⟩
  · exact indmapref_eq _ _ _ _ _ _ _ _ _ (fineIndex_eq _ _ hx0 hx1 hx2 hx3)
      (fineIndex_eq _ _ hy0 hy1 hy2 hy3) (fineIndex_eq _ _ hz0 hz1 hz2 hz3)
  · intro f hf
    simp only [List.mem_cons, List.mem_singleton, List.not_mem_nil, or_false] at hf
    rcases hf with h | h | h <;> subst h <;> omega
  · have hs : ∀ s : Int, fineIndex s s = some 0 := by
      intro s
      have h := fineIndex_eq s s (by rw [sub_self]; decide) (by rw [sub_self]; decide)
        (by rw [sub_self]; decide) (by rw [sub_self]; decide)
      rw [h, sub_self]
      rfl
    exact indmapref_eq _ _ _ _ _ _ _ _ _ (hs x_start) (hs y_start) (hs z_start)

/-- C12 at `indmapref(5, 3, 7, 7, 2, 0)`. -/
theorem indmapref_spec_witness :
    indmapref 5 3 7 7 2 0 = Checked.done [4, 0, 4] :=
  (indmapref_spec 5 3 7 7 2 0 (by decide) (by decide) (by decide) (by decide) (by decide)
    (by decide) (by decide) (by decide) (by decide) (by decide) (by decide) (by decide)).1

/-- C18 fails as stated: in the two-dimensional configuration `tecConfig2D` the coarse site
`(2, 2, 0)` lies inside the refined region on every axis, `indmapref` returns the fine indices
`2, 2, 0`, and `io_tecplot` declares `k_count = 1` for the sub-grid, so on the `z` axis
`f + 1 = 1` is not below the declared count. -/
theorem indmapref_z_not_inside_flat_count :
    tecGrid.level ≠ 0
      ∧ tecConfig2D.RefZstart (tecGrid.level - 1) tecGrid.region_number ≤ 0
      ∧ 0 ≤ tecConfig2D.RefZend (tecGrid.level - 1) tecGrid.region_number
      ∧ indmapref 2 (tecConfig2D.RefXstart (tecGrid.level - 1) tecGrid.region_number)
          2 (tecConfig2D.RefYstart (tecGrid.level - 1) tecGrid.region_number)
          0 (tecConfig2D.RefZstart (tecGrid.level - 1) tecGrid.region_number)
          = Checked.done [2, 2, 0]
      ∧ (tecCounts tecConfig2D tecGrid).2.2 = 1
      ∧ ¬ ((0 : Int) + 1 < (tecCounts tecConfig2D tecGrid).2.2) := by
  refine ⟨by decide, by decide, by decide, by decide, by decide, by decide⟩

/-- C18, amended: for a coarse site inside the refined region on every axis, the fine indices
returned by `indmapref` (with the starts of the region) satisfy `0 ≤ f` and
`f + 1 < 2*(RefEnd - RefStart + 1)`; on `x` and `y`, and on `z` in a three-dimensional build,
this bound is the number of sites that `io_tecplot` declares for the sub-grid, so both fine sites
lie inside it; in a build that is not three-dimensional `io_tecplot` declares `k_count = 1`. The
bound on the region is the one under which these counts fit an `int`. -/
theorem indmapref_inside_subgrid (cfg : TecConfig) (g : GridObj) (coarse_i coarse_j coarse_k : Int)
    (hlev : g.level ≠ 0)
    (hxs : cfg.RefXstart (g.level - 1) g.region_number ≤ coarse_i)
    (hxe : coarse_i ≤ cfg.RefXend (g.level - 1) g.region_number)
    (hys : cfg.RefYstart (g.level - 1) g.region_number ≤ coarse_j)
    (hye : coarse_j ≤ cfg.RefYend (g.level - 1) g.region_number)
    (hzs : cfg.RefZstart (g.level - 1) g.region_number ≤ coarse_k)
    (hze : coarse_k ≤ cfg.RefZend (g.level - 1) g.region_number)
    (hxfit : fitsInt ((cfg.RefXend (g.level - 1) g.region_number
      - cfg.RefXstart (g.level - 1) g.region_number + 1) * 2))
    (hyfit : fitsInt ((cfg.RefYend (g.level - 1) g.region_number
      - cfg.RefYstart (g.level - 1) g.region_number + 1) * 2))
    (hzfit : fitsInt ((cfg.RefZend (g.level - 1) g.region_number
      - cfg.RefZstart (g.level - 1) g.region_number + 1) * 2)) :
    ∃ fi fj fk : Int,
      indmapref coarse_i (cfg.RefXstart (g.level - 1) g.region_number)
          coarse_j (cfg.RefYstart (g.level - 1) g.region_number)
          coarse_k (cfg.RefZstart (g.level - 1) g.region_number) = Checked.done [fi, fj, fk]
      ∧ (0 ≤ fi ∧ fi + 1 < 2 * (cfg.RefXend (g.level - 1) g.region_number
            - cfg.RefXstart (g.level - 1) g.region_number + 1)
          ∧ fi + 1 < (tecCounts cfg g).1)
      ∧ (0 ≤ fj ∧ fj + 1 < 2 * (cfg.RefYend (g.level - 1) g.region_number
            - cfg.RefYstart (g.level - 1) g.region_number + 1)
          ∧ fj + 1 < (tecCounts cfg g).2.1)
      ∧ (0 ≤ fk ∧ fk + 1 < 2 * (cfg.RefZend (g.level - 1) g.region_number
            - cfg.RefZstart (g.level - 1) g.region_number + 1)
          ∧ (cfg.dims = 3 → fk + 1 < (tecCounts cfg g).2.2)
          ∧ (cfg.dims ≠ 3 → (tecCounts cfg g).2.2 = 1)) := by
  have key : ∀ c s e : Int, s ≤ c → c ≤ e → fitsInt ((e - s + 1) * 2) →
      fineIndex c s = some (2 * (c - s)) := by
    intro c s e h1 h2 h3
    unfold fitsInt at h3
    exact fineIndex_eq c s (by unfold fitsInt; omega) (by unfold fitsInt; omega)
      (by unfold fitsInt; omega) (by unfold fitsInt; omega)
  refine ⟨_, _, _, indmapref_eq _ _ _ _ _ _ _ _ _ (key _ _ _ hxs hxe hxfit)
    (key _ _ _ hys hye hyfit) (key _ _ _ hzs hze hzfit), ?_, ?_, ?_⟩
  · simp only [tecCounts, if_neg hlev]
    omega
  · simp only [tecCounts, if_neg hlev]
    omega
  · refine ⟨by omega, by omega, ?_, ?_⟩
    · intro h3
      simp only [tecCounts, if_neg hlev, if_pos h3]
      omega
    · intro h3
      simp only [tecCounts, if_neg hlev, if_neg h3]

/-- C18 (amended) at the last coarse site `(2, 2, 2)` of the region of `tecConfig3D`: the fine
indices are `2, 2, 2` and `f + 1 = 3` is below the count 4 declared on each of the three axes. -/
theorem indmapref_inside_subgrid_witness :
    tecConfig3D.dims = 3 ∧
    ∃ fi fj fk : Int,
      indmapref 2 1 2 1 2 1 = Checked.done [fi, fj, fk]
      ∧ (0 ≤ fi ∧ fi + 1 < 2 * (2 - 1 + 1) ∧ fi + 1 < (tecCounts tecConfig3D tecGrid).1)
      ∧ (0 ≤ fj ∧ fj + 1 < 2 * (2 - 1 + 1) ∧ fj + 1 < (tecCounts tecConfig3D tecGrid).2.1)
      ∧ (0 ≤ fk ∧ fk + 1 < 2 * (2 - 1 + 1) ∧ fk + 1 < (tecCounts tecConfig3D tecGrid).2.2) := by
  obtain ⟨fi, fj, fk, h, hx, hy, hz0, hz1, hz3, _⟩ :=
    indmapref_inside_subgrid tecConfig3D tecGrid 2 2 2 (by decide) (by decide) (by decide)
      (by decide) (by decide) (by decide) (by decide) (by decide) (by decide) (by decide)
  exact ⟨rfl, fi, fj, fk, h, hx, hy, hz0, hz1, hz3 rfl⟩

/-! ## `io_tecplot` -/

theorem tecRow_eq (cfg : TecConfig) (g : GridObj) (i j k : Nat) (x y z : ℚ)
    (hd : cfg.dims = 2 ∨ cfg.dims = 3) :
    tecRow cfg g i j k x y z = VARIABLES.map (columnValue cfg.dims g i j k x y z) := by
  rcases hd with h | h
  · simp [tecRow, tecComponents, VARIABLES, columnValue, h]
  · simp [tecRow, tecComponents, VARIABLES, columnValue, h]

theorem tecLoopI_spec (cfg : TecConfig) (g : GridObj) (k j : Nat)
    (hd : cfg.dims = 2 ∨ cfg.dims = 3) (hj : j < g.YPos.length) (hk : k < g.ZPos.length) :
    ∀ (n i : Nat) (out : List TecLine), i + n ≤ g.XPos.length →
      ∃ rows, tecLoopI cfg g k j n i out = some (out ++ rows) ∧
        ∀ line ∈ rows, isSiteRow cfg g line := by
  intro n
  induction n with
  | zero =>
    intro i out _
    exact ⟨[], by simp [tecLoopI], by simp⟩
  | succ n ih =>
    intro i out hi
    have hix : i < g.XPos.length := by omega
    rw [tecLoopI, List.getElem?_eq_getElem hix, List.getElem?_eq_getElem hj,
      List.getElem?_eq_getElem hk]
    simp only
    split_ifs with hc
    · exact ih (i + 1) out (by omega)
    · obtain ⟨rows, hrows, hall⟩ := ih (i + 1)
        (out ++ [TecLine.data (tecRow cfg g i j k g.XPos[i] g.YPos[j] g.ZPos[k])]) (by omega)
      refine ⟨TecLine.data (tecRow cfg g i j k g.XPos[i] g.YPos[j] g.ZPos[k]) :: rows, ?_, ?_⟩
      · rw [hrows]
        simp
      · intro line hl
        rcases List.mem_cons.mp hl with h | h
        · subst h
          exact ⟨i, j, k, _, _, _, List.getElem?_eq_getElem hix, List.getElem?_eq_getElem hj,
            List.getElem?_eq_getElem hk, by rw [tecRow_eq cfg g i j k _ _ _ hd]⟩
        · exact hall line h

theorem tecLoopJ_spec (cfg : TecConfig) (g : GridObj) (k : Nat)
    (hd : cfg.dims = 2 ∨ cfg.dims = 3) (hx : g.XInd.length ≤ g.XPos.length)
    (hk : k < g.ZPos.length) :
    ∀ (n j : Nat) (out : List TecLine), j + n ≤ g.YPos.length →
      ∃ rows, tecLoopJ cfg g k n j out = some (out ++ rows) ∧
        ∀ line ∈ rows, isSiteRow cfg g line := by
  intro n
  induction n with
  | zero =>
    intro j out _
    exact ⟨[], by simp [tecLoopJ], by simp⟩
  | succ n ih =>
    intro j out hj
    obtain ⟨r1, h1, a1⟩ := tecLoopI_spec cfg g k j hd (by omega) hk (g.XInd.length - 0) 0 out
      (by omega)
    obtain ⟨r2, h2, a2⟩ := ih (j + 1) (out ++ r1) (by omega)
    refine ⟨r1 ++ r2, ?_, ?_⟩
    · rw [tecLoopJ, h1]
      simp only
      rw [h2, List.append_assoc]
    · intro line hl
      rcases List.mem_append.mp hl with h | h
      · exact a1 line h
      · exact a2 line h

theorem tecLoopK_spec (cfg : TecConfig) (g : GridObj)
    (hd : cfg.dims = 2 ∨ cfg.dims = 3) (hx : g.XInd.length ≤ g.XPos.length)
    (hy : g.YInd.length ≤ g.YPos.length) :
    ∀ (n k : Nat) (out : List TecLine), k + n ≤ g.ZPos.length →
      ∃ rows, tecLoopK cfg g n k out = some (out ++ rows) ∧
        ∀ line ∈ rows, isSiteRow cfg g line := by
  intro n
  induction n with
  | zero =>
    intro k out _
    exact ⟨[], by simp [tecLoopK], by simp⟩
  | succ n ih =>
    intro k out hk
    obtain ⟨r1, h1, a1⟩ := tecLoopJ_spec cfg g k hd hx (by omega) (g.YInd.length - 0) 0 out
      (by omega)
    obtain ⟨r2, h2, a2⟩ := ih (k + 1) (out ++ r1) (by omega)
    refine ⟨r1 ++ r2, ?_, ?_⟩
    · rw [tecLoopK, h1]
      simp only
      rw [h2, List.append_assoc]
    · intro line hl
      rcases List.mem_append.mp hl with h | h
      · exact a1 line h
      · exact a2 line h

/-- C20: in a two- or three-dimensional build, on a grid whose position vectors cover its index
vectors, `io_tecplot` appends the header (when the file is new) followed by data rows, and every
data row is the row of a site: it lists, in the order of the 17 names of the `VARIABLES` line,
the value `columnValue` gives to each name, so it has 17 values; for `dims = 2` the columns `UZ`,
`TA_UZ`, `TA_UXUZ`, `TA_UYUZ`, `TA_UZUZ` are `0` and `TA_UXUX`, `TA_UXUY`, `TA_UYUY` are the
products of index 0, 1, 2. -/
theorem io_tecplot_rows (cfg : TecConfig) (g : GridObj) (tval : ℚ) (exists_flag : Bool)
    (hd : cfg.dims = 2 ∨ cfg.dims = 3) (hx : g.XInd.length ≤ g.XPos.length)
    (hy : g.YInd.length ≤ g.YPos.length) (hz : g.ZInd.length ≤ g.ZPos.length) :
    ∃ rows,
      io_tecplot cfg g tval exists_flag
          = some ((if exists_flag then [] else tecHeader cfg g tval) ++ rows)
      ∧ (∀ line ∈ rows, isSiteRow cfg g line)
      ∧ (∀ line ∈ rows, ∃ row, line = TecLine.data row ∧ row.length = 17)
      ∧ VARIABLES.length = 17
      ∧ (∀ (i j k : Nat) (x y z : ℚ), cfg.dims = 2 →
          VARIABLES.map (columnValue cfg.dims g i j k x y z)
            = [x, y, z, g.rho i j k, g.u i j k 0, g.u i j k 1, 0,
               g.rho_timeav i j k, g.ui_timeav i j k 0, g.ui_timeav i j k 1, 0,
               g.uiuj_timeav i j k 0, g.uiuj_timeav i j k 1, 0, g.uiuj_timeav i j k 2, 0, 0]) := by
  obtain ⟨rows, hrows, hall⟩ := tecLoopK_spec cfg g hd hx hy (g.ZInd.length - 0) 0
    (if exists_flag then [] else tecHeader cfg g tval) (by omega)
  refine ⟨rows, ?_, hall, ?_, rfl, ?_⟩
  · unfold io_tecplot
    simp only
    rw [← hrows]
    cases exists_flag <;> rfl
  · intro line hl
    obtain ⟨i, j, k, x, y, z, _, _, _, h⟩ := hall line hl
    exact ⟨_, h, by simp [VARIABLES]⟩
  · intro i j k x y z h2
    simp [VARIABLES, columnValue, h2]

/-- C20 at the two-dimensional configuration `tecConfig2D` and the grid `tecGrid`. -/
theorem io_tecplot_rows_witness :
    ∃ rows,
      io_tecplot tecConfig2D tecGrid 5 true = some ([] ++ rows)
      ∧ (∀ line ∈ rows, isSiteRow tecConfig2D tecGrid line)
      ∧ (∀ line ∈ rows, ∃ row, line = TecLine.data row ∧ row.length = 17) := by
  obtain ⟨rows, h1, h2, h3, _, _⟩ :=
    io_tecplot_rows tecConfig2D tecGrid 5 true (Or.inl rfl) (by decide) (by decide) (by decide)
  exact ⟨rows, h1, h2, h3⟩

end LatBo
